/-
Verification of the ASE-importer helpers of this repository:
  - src/code/ASEParser.h       (ASE::Face, ASE::Mesh and their default constructors)
  - src/code/SmoothingGroups.inl (ComputeNormalsWithSmoothingsGroups)

Modelling conventions.
  * Float arithmetic is modelled over the real numbers; a float vector
    (aiVector3D) becomes a record of three reals.
  * C++ `std::vector` indexing (unchecked in the source) is embedded as
    Option-returning access: reading or writing out of bounds yields `none`,
    so the whole normal generator is a function `ASE.Mesh → Option ASE.Mesh`.
  * Components of the repository that are only declared, not present, under
    src/ (SGSpatialSort from SGSpatialSort.h, aiVector3D::Normalize and the
    smoothing-group field of the Dot3DS face base from external headers) are
    modelled from the spec; each such definition is marked
    `Modelled from the spec:` in its doc comment.
-/
import Mathlib

noncomputable section

/-- Real-valued model of aiVector3D: three float components x, y, z. -/
structure Vec3 where
  x : ℝ
  y : ℝ
  z : ℝ

/-- Value-initialized aiVector3D(): all components zero. -/
def Vec3.zero : Vec3 := ⟨0, 0, 0⟩

/-- Componentwise sum, operator+ of aiVector3D. -/
def Vec3.add (a b : Vec3) : Vec3 := ⟨a.x + b.x, a.y + b.y, a.z + b.z⟩

/-- Componentwise difference, operator- of aiVector3D. -/
def Vec3.sub (a b : Vec3) : Vec3 := ⟨a.x - b.x, a.y - b.y, a.z - b.z⟩

/-- Cross product, operator^ of aiVector3D. -/
def Vec3.cross (a b : Vec3) : Vec3 :=
  ⟨a.y * b.z - a.z * b.y, a.z * b.x - a.x * b.z, a.x * b.y - a.y * b.x⟩

/-- Dot product of two vectors. -/
def Vec3.dot (a b : Vec3) : ℝ := a.x * b.x + a.y * b.y + a.z * b.z

/-- Squared Euclidean length of a vector. -/
def Vec3.lengthSq (a : Vec3) : ℝ := Vec3.dot a a

/-- Euclidean length, aiVector3D::Length. -/
def Vec3.length (a : Vec3) : ℝ := Real.sqrt a.lengthSq

/-- Modelled from the spec: aiVector3D::Normalize (the header defining it is
not under src/). Divides every component by the length; per the spec a
zero-length vector normalizes to the zero vector (in this real model each
component becomes 0 / 0 = 0). -/
def Vec3.Normalize (a : Vec3) : Vec3 :=
  ⟨a.x / a.length, a.y / a.length, a.z / a.length⟩

/-- Real-valued model of aiColor4D, a vertex color with four components. -/
structure Color4 where
  r : ℝ
  g : ℝ
  b : ℝ
  a : ℝ

namespace ASE

/-- ASE::Face of src/code/ASEParser.h. `mIndices`, `amUVIndices`,
`mColorIndices`, `iMaterial` and `iFace` are the fields declared there; the
8 UV channels are AI_MAX_NUMBER_OF_TEXTURECOORDS per the spec's data model.
`iSmoothGroup` is inherited from the Dot3DS face base, which is not under
src/; modelled from the spec: a smoothing-group bitmask, 0 meaning hard
edge. -/
structure Face where
  mIndices : Fin 3 → ℕ
  amUVIndices : Fin 8 → Fin 3 → ℕ
  mColorIndices : Fin 3 → ℕ
  iMaterial : ℕ
  iFace : ℕ
  iSmoothGroup : ℕ

/-- The sentinel Face::DEFAULT_MATINDEX = 0xFFFFFFFF: no material index has
been assigned to the face yet. -/
def Face.DEFAULT_MATINDEX : ℕ := 0xFFFFFFFF

/-- The default constructor Face::Face of src/code/ASEParser.h lines 94-104:
color indices and all UV indices of the 8 channels are set to 0, iMaterial
to DEFAULT_MATINDEX and iFace to 0. `mIndices` and `iSmoothGroup` are left
uninitialized by the constructor; the model picks 0 for them, and no theorem
relies on that choice. -/
def FaceDefaultCtor : Face where
  mIndices := fun _ => 0
  amUVIndices := fun _ _ => 0
  mColorIndices := fun _ => 0
  iMaterial := Face.DEFAULT_MATINDEX
  iFace := 0
  iSmoothGroup := 0

/-- ASE::Mesh of src/code/ASEParser.h: name, positions, faces, the 8 texture
coordinate channels, vertex colors, normals, transform, material index and
the per-channel UV component counts. -/
structure Mesh where
  mName : String
  mPositions : List Vec3
  mFaces : List Face
  amTexCoords : Fin 8 → List Vec3
  mVertexColors : List Color4
  mNormals : List Vec3
  mTransform : Fin 4 → Fin 4 → ℝ
  iMaterialIndex : ℕ
  mNumUVComponents : Fin 8 → ℕ

/-- The default constructor Mesh::Mesh of src/code/ASEParser.h lines 135-144,
threaded explicitly through the static counter iCnt (returned incremented).
The constructor builds the string stream text over a copy of mName and never
stores the stream's content back, so mName keeps its default-constructed
empty value; mNumUVComponents is set to 2 for every channel. The vector
members default-construct empty; the transform defaults to the identity
(aiMatrix4x4's default constructor, external header). -/
def MeshDefaultCtor (iCnt : ℕ) : Mesh × ℕ :=
  ({ mName := ""
     mPositions := []
     mFaces := []
     amTexCoords := fun _ => []
     mVertexColors := []
     mNormals := []
     mTransform := fun i j => if i = j then 1 else 0
     iMaterialIndex := 0
     mNumUVComponents := fun _ => 2 }, iCnt + 1)

/-- The name the constructor's stream formats (and then discards):
the text %%_UNNAMED_<iCnt>_%% built from the counter value. -/
def intendedDefaultName (iCnt : ℕ) : String :=
  "%%_UNNAMED_" ++ toString iCnt ++ "_%%"

end ASE

/-- Model of std::vector::resize(n, d): keep the first n existing elements,
append copies of d up to length n. -/
def listResize (l : List α) (n : ℕ) (d : α) : List α :=
  l.take n ++ List.replicate (n - l.length) d

/-- Bounds-checked write, the embedding of `v[i] = a` on a std::vector:
out of bounds yields none. -/
def setOpt (l : List α) (i : ℕ) (a : α) : Option (List α) :=
  if i < l.length then some (l.set i a) else none

/-- Modelled from the spec: an entry of the SGSpatialSort index
(SGSpatialSort.h is not under src/): an indexed position tagged with a
smoothing-group mask. -/
structure SGEntry where
  mPosition : Vec3
  mIndex : ℕ
  mSmoothGroups : ℕ

/-- Modelled from the spec: the fixed unit projection direction
(0.57, 0.57, 0.57) of the spatial sort. -/
def planeNormal : Vec3 := ⟨0.57, 0.57, 0.57⟩

/-- Modelled from the spec: the scalar sort key of an entry, the projection
of its position onto the fixed direction. -/
def SGEntry.key (e : SGEntry) : ℝ := Vec3.dot e.mPosition planeNormal

/-- Ordering of index entries by ascending sort key. -/
def SGkeyLE (a b : SGEntry) : Prop := a.key ≤ b.key

instance : DecidableRel SGkeyLE := fun a b => Real.decidableLE a.key b.key

instance : IsTotal SGEntry SGkeyLE := ⟨fun a b => le_total a.key b.key⟩

instance : IsTrans SGEntry SGkeyLE := ⟨fun _ _ _ h h' => le_trans h h'⟩

/-- Modelled from the spec: SGSpatialSort::Prepare sorts all added entries
ascending by their projection key. -/
def Prepare (l : List SGEntry) : List SGEntry := List.insertionSort SGkeyLE l

/-- Modelled from the spec: the acceptance test of a query candidate — its
true 3D distance to the query position is at most epsilon AND its mask
shares at least one bit with the query mask. -/
def matchesQuery (pPosition : Vec3) (pSG : ℕ) (pRadius : ℝ) (e : SGEntry) : Prop :=
  (Vec3.sub e.mPosition pPosition).length ≤ pRadius ∧ e.mSmoothGroups &&& pSG ≠ 0

instance (pPosition : Vec3) (pSG : ℕ) (pRadius : ℝ) (e : SGEntry) :
    Decidable (matchesQuery pPosition pSG pRadius e) := by
  unfold matchesQuery; infer_instance

/-- Modelled from the spec: SGSpatialSort::FindPositions on the prepared
(sorted) entry list. Binary-search for the first entry with key at least
key(P) - epsilon (realized on the sorted list as dropping the strictly
smaller prefix), scan forward while the key is at most key(P) + epsilon,
accept candidates by true 3D distance and mask intersection, and return
their stored indices. -/
def FindPositions (prepared : List SGEntry) (pPosition : Vec3) (pSG : ℕ)
    (pRadius : ℝ) : List ℕ :=
  let dist := Vec3.dot pPosition planeNormal
  (((prepared.dropWhile fun e => decide (e.key < dist - pRadius)).takeWhile
      fun e => decide (e.key ≤ dist + pRadius)).filter
      fun e => decide (matchesQuery pPosition pSG pRadius e)).map SGEntry.mIndex

/-- Reads of the three corner positions and the cross product of
SmoothingGroups.inl lines 66-72: the unnormalized flat face normal
(P[i1] - P[i0]) x (P[i2] - P[i0]). -/
def flatNormalOf (pos : List Vec3) (f : ASE.Face) : Option Vec3 :=
  (pos[f.mIndices 0]?).bind fun pV1 =>
  (pos[f.mIndices 1]?).bind fun pV2 =>
  (pos[f.mIndices 2]?).bind fun pV3 =>
  some (Vec3.cross (Vec3.sub pV2 pV1) (Vec3.sub pV3 pV1))

/-- First loop of ComputeNormalsWithSmoothingsGroups (lines 61-77): for each
face in order, compute its flat normal and write it into the face's three
position slots of the normal buffer. -/
def scatterFlat (pos : List Vec3) : List ASE.Face → List Vec3 → Option (List Vec3)
  | [], ns => some ns
  | f :: rest, ns =>
    (flatNormalOf pos f).bind fun vNor =>
    (setOpt ns (f.mIndices 0) vNor).bind fun ns1 =>
    (setOpt ns1 (f.mIndices 1) vNor).bind fun ns2 =>
    (setOpt ns2 (f.mIndices 2) vNor).bind fun ns3 =>
    scatterFlat pos rest ns3

/-- Componentwise minimum fold of lines 82-87, starting from the sentinel
(1e10, 1e10, 1e10). -/
def minVecOf (pos : List Vec3) : Vec3 :=
  pos.foldl (fun m p => ⟨min m.x p.x, min m.y p.y, min m.z p.z⟩) ⟨1e10, 1e10, 1e10⟩

/-- Componentwise maximum fold of lines 82-91, starting from the sentinel
(-1e10, -1e10, -1e10). -/
def maxVecOf (pos : List Vec3) : Vec3 :=
  pos.foldl (fun m p => ⟨max m.x p.x, max m.y p.y, max m.z p.z⟩) ⟨-1e10, -1e10, -1e10⟩

/-- The welding epsilon of line 92: (maxVec - minVec).Length() * 1e-5. -/
def posEpsilonOf (pos : List Vec3) : ℝ :=
  (Vec3.sub (maxVecOf pos) (minVecOf pos)).length * 1e-5

/-- The three SGSpatialSort::Add calls of lines 101-103 for one face: an
entry per corner, carrying the corner's position, its position index and the
face's smoothing-group mask. -/
def addFaceEntries (pos : List Vec3) (f : ASE.Face) : Option (List SGEntry) :=
  (pos[f.mIndices 0]?).bind fun p0 =>
  (pos[f.mIndices 1]?).bind fun p1 =>
  (pos[f.mIndices 2]?).bind fun p2 =>
  some [⟨p0, f.mIndices 0, f.iSmoothGroup⟩,
        ⟨p1, f.mIndices 1, f.iSmoothGroup⟩,
        ⟨p2, f.mIndices 2, f.iSmoothGroup⟩]

/-- Loop of lines 98-104: add the three corner entries of every face. -/
def buildEntries (pos : List Vec3) : List ASE.Face → Option (List SGEntry)
  | [] => some []
  | f :: rest =>
    (addFaceEntries pos f).bind fun es =>
    (buildEntries pos rest).bind fun tail =>
    some (es ++ tail)

/-- Summation loop of lines 117-124: vNormals += sMesh.mNormals[*a] over the
query result, folded left from the accumulator. -/
def sumNormalsAux (mNormals : List Vec3) (acc : Vec3) : List ℕ → Option Vec3
  | [] => some acc
  | i :: rest =>
    (mNormals[i]?).bind fun v =>
    sumNormalsAux mNormals (Vec3.add acc v) rest

/-- Body of lines 112-127 for one corner c of face f: query the spatial
index with the corner's position and the face's mask, sum the scratch
normals of the matches, normalize and write into the corner's position slot
of avNormals. -/
def cornerUpdate (pos mNormals : List Vec3) (prepared : List SGEntry) (eps : ℝ)
    (f : ASE.Face) (c : Fin 3) (av : List Vec3) : Option (List Vec3) :=
  (pos[f.mIndices c]?).bind fun p =>
  (sumNormalsAux mNormals Vec3.zero (FindPositions prepared p f.iSmoothGroup eps)).bind
    fun vNormals =>
  setOpt av (f.mIndices c) vNormals.Normalize

/-- Second face loop of lines 107-128: the three corner updates of every
face, in face order then corner order. -/
def smoothLoop (pos mNormals : List Vec3) (prepared : List SGEntry) (eps : ℝ) :
    List ASE.Face → List Vec3 → Option (List Vec3)
  | [], av => some av
  | f :: rest, av =>
    (cornerUpdate pos mNormals prepared eps f 0 av).bind fun av1 =>
    (cornerUpdate pos mNormals prepared eps f 1 av1).bind fun av2 =>
    (cornerUpdate pos mNormals prepared eps f 2 av2).bind fun av3 =>
    smoothLoop pos mNormals prepared eps rest av3

/-- ComputeNormalsWithSmoothingsGroups of src/code/SmoothingGroups.inl
lines 57-130: resize the normal buffer to one slot per position, scatter the
flat face normals into it, compute the welding epsilon from the bounding
box, build and prepare the spatial sort over all face corners, run the
smoothing loop into the fresh zero-initialized avNormals buffer and store
that buffer as the mesh's normals. -/
def ComputeNormalsWithSmoothingsGroups (sMesh : ASE.Mesh) : Option ASE.Mesh :=
  let mNormals0 := listResize sMesh.mNormals sMesh.mPositions.length Vec3.zero
  (scatterFlat sMesh.mPositions sMesh.mFaces mNormals0).bind fun mNormals1 =>
  let posEpsilon := posEpsilonOf sMesh.mPositions
  let avNormals0 := List.replicate mNormals1.length Vec3.zero
  (buildEntries sMesh.mPositions sMesh.mFaces).bind fun entries =>
  (smoothLoop sMesh.mPositions mNormals1 (Prepare entries) posEpsilon
      sMesh.mFaces avNormals0).bind fun avNormals =>
  some { sMesh with mNormals := avNormals }

/-- The post-parse reconciliation invariant: every vertex index of every
face resolves within the mesh's position sequence. -/
def FacesInBounds (m : ASE.Mesh) : Prop :=
  ∀ f ∈ m.mFaces, ∀ c : Fin 3, f.mIndices c < m.mPositions.length

instance (m : ASE.Mesh) : Decidable (FacesInBounds m) := by
  unfold FacesInBounds; infer_instance

/-- Written from the spec's words, for comparison with the code-derived
fold: the componentwise minimum corner of the axis-aligned bounding box of a
nonempty position sequence. -/
def specAABBMin : List Vec3 → Option Vec3
  | [] => none
  | p :: rest =>
    some (rest.foldl (fun m q => ⟨min m.x q.x, min m.y q.y, min m.z q.z⟩) p)

/-- Written from the spec's words: the componentwise maximum corner of the
axis-aligned bounding box of a nonempty position sequence. -/
def specAABBMax : List Vec3 → Option Vec3
  | [] => none
  | p :: rest =>
    some (rest.foldl (fun m q => ⟨max m.x q.x, max m.y q.y, max m.z q.z⟩) p)

/-- Written from the spec's words: the length of the diagonal of the
axis-aligned bounding box of a nonempty position sequence. -/
def specAABBDiagLen (pos : List Vec3) : Option ℝ :=
  (specAABBMin pos).bind fun a =>
  (specAABBMax pos).bind fun b =>
  some (Vec3.sub b a).length

/-- Written from the spec's words (section 4.4 steps 4-5 together with the
4.3 acceptance rule), for comparison with the pipeline: the output normal of
corner c of face f is the normalization of the sum of the scratch flat
normals of all index entries matching the corner's own query — entries
within the welding epsilon of the corner's position whose mask shares a bit
with the face's mask. -/
def cornerSmoothedNormal (m : ASE.Mesh) (f : ASE.Face) (c : Fin 3) : Option Vec3 :=
  (scatterFlat m.mPositions m.mFaces
      (listResize m.mNormals m.mPositions.length Vec3.zero)).bind fun scratch =>
  (buildEntries m.mPositions m.mFaces).bind fun entries =>
  (m.mPositions[f.mIndices c]?).bind fun p =>
  (sumNormalsAux scratch Vec3.zero
      ((entries.filter fun e =>
          decide (matchesQuery p f.iSmoothGroup (posEpsilonOf m.mPositions) e)).map
        SGEntry.mIndex)).bind fun vN =>
  some vN.Normalize

/-- Fixture helper: a face with the given corner indices and smoothing mask;
the remaining fields are the default-constructed ones. -/
def mkFace (i0 i1 i2 sg : ℕ) : ASE.Face :=
  { ASE.FaceDefaultCtor with mIndices := ![i0, i1, i2], iSmoothGroup := sg }

/-- Fixture: one right triangle over positions (0,0,0), (3,0,0), (0,4,0)
with smoothing mask 0 (hard edge), plus a fourth position referenced by no
face. Its flat normal is (0,0,12) and its bounding-box diagonal is 5. -/
def TRI0 : ASE.Mesh :=
  { mName := "tri0"
    mPositions := [⟨0, 0, 0⟩, ⟨3, 0, 0⟩, ⟨0, 4, 0⟩, ⟨0, 0, 0⟩]
    mFaces := [mkFace 0 1 2 0]
    amTexCoords := fun _ => []
    mVertexColors := []
    mNormals := []
    mTransform := fun i j => if i = j then 1 else 0
    iMaterialIndex := 0
    mNumUVComponents := fun _ => 2 }

/-- Fixture: three triangles A, B, C with smoothing masks 1, 3 and 2, each
with one corner at the origin under a distinct position index (0, 3 and 6);
all other corners are pairwise farther apart than the welding epsilon. The
flat normals are (0,0,1), (0,0,4) and (0,0,-12); the bounding-box diagonal
is 5, so the welding epsilon is 5e-5. Masks 1 and 3 share a bit, masks 3 and
2 share a bit, masks 1 and 2 are disjoint. -/
def TRICHAIN : ASE.Mesh :=
  { mName := "trichain"
    mPositions := [⟨0, 0, 0⟩, ⟨1, 0, 0⟩, ⟨0, 1, 0⟩,
                   ⟨0, 0, 0⟩, ⟨2, 0, 0⟩, ⟨0, 2, 0⟩,
                   ⟨0, 0, 0⟩, ⟨0, 4, 0⟩, ⟨3, 0, 0⟩]
    mFaces := [mkFace 0 1 2 1, mkFace 3 4 5 3, mkFace 6 7 8 2]
    amTexCoords := fun _ => []
    mVertexColors := []
    mNormals := []
    mTransform := fun i j => if i = j then 1 else 0
    iMaterialIndex := 0
    mNumUVComponents := fun _ => 2 }

/-- Fixture for the epsilon formula: both positions lie beyond the 1e10
sentinel that initializes the minimum fold, so the fold's minimum (1e10)
is not the bounding box's minimum (2e10). -/
def FARPOS : List Vec3 := [⟨2e10, 0, 0⟩, ⟨3e10, 0, 0⟩]

/-- The normal generator's output on TRI0: every corner of the mask-0 face
queries with mask 0, matches no entry, and receives the normalization of the
empty sum — the zero vector; the unreferenced fourth slot keeps its
zero initialization. -/
def TRI0R : ASE.Mesh :=
  { TRI0 with mNormals := [Vec3.zero, Vec3.zero, Vec3.zero, Vec3.zero] }

/-- The normal generator's output on TRICHAIN (welding epsilon 5e-5).
The origin corner of face A (mask 1) matches the origin entries of A and B
(sum (0,0,5), normalized (0,0,1)); the origin corner of face B (mask 3)
matches the origin entries of A, B and C (sum (0,0,-7), normalized
(0,0,-1)); the origin corner of face C (mask 2) matches those of B and C
(sum (0,0,-8), normalized (0,0,-1)); every other corner matches only its
own entry and receives its face's normalized flat normal. -/
def TRICHAINR : ASE.Mesh :=
  { TRICHAIN with mNormals :=
      [⟨0, 0, 1⟩, ⟨0, 0, 1⟩, ⟨0, 0, 1⟩,
       ⟨0, 0, -1⟩, ⟨0, 0, 1⟩, ⟨0, 0, 1⟩,
       ⟨0, 0, -1⟩, ⟨0, 0, -1⟩, ⟨0, 0, -1⟩] }

/-- The scratch (flat-normal) buffer the first phase produces on TRICHAIN:
face A's flat normal (0,0,1) in slots 0..2, face B's (0,0,4) in slots 3..5
and face C's (0,0,-12) in slots 6..8. -/
def TRICHAIN_scratch : List Vec3 :=
  [⟨0, 0, 1⟩, ⟨0, 0, 1⟩, ⟨0, 0, 1⟩,
   ⟨0, 0, 4⟩, ⟨0, 0, 4⟩, ⟨0, 0, 4⟩,
   ⟨0, 0, -12⟩, ⟨0, 0, -12⟩, ⟨0, 0, -12⟩]

/-- The spatial-sort entries contributed by TRICHAIN's nine face corners,
in face order then corner order. -/
def TRICHAIN_entries : List SGEntry :=
  [⟨⟨0, 0, 0⟩, 0, 1⟩, ⟨⟨1, 0, 0⟩, 1, 1⟩, ⟨⟨0, 1, 0⟩, 2, 1⟩,
   ⟨⟨0, 0, 0⟩, 3, 3⟩, ⟨⟨2, 0, 0⟩, 4, 3⟩, ⟨⟨0, 2, 0⟩, 5, 3⟩,
   ⟨⟨0, 0, 0⟩, 6, 2⟩, ⟨⟨0, 4, 0⟩, 7, 2⟩, ⟨⟨3, 0, 0⟩, 8, 2⟩]

/-! Helper lemmas about the vector model and the list primitives. -/

theorem Vec3.add_add_swap (a u v : Vec3) :
    Vec3.add (Vec3.add a u) v = Vec3.add (Vec3.add a v) u := by
  simp only [Vec3.add]
  exact congrArg₂ (fun r s => Vec3.mk r s _) (by ring) (by ring) |>.trans
    (congrArg (Vec3.mk _ _) (by ring))

theorem Vec3.length_zero : Vec3.zero.length = 0 := by
  simp [Vec3.length, Vec3.lengthSq, Vec3.dot, Vec3.zero, Real.sqrt_zero]

theorem Vec3.Normalize_zero : Vec3.zero.Normalize = Vec3.zero := by
  simp [Vec3.Normalize, Vec3.zero]

theorem Vec3.length_unitz (t : ℝ) : (Vec3.mk 0 0 t).length = |t| := by
  have h : (Vec3.mk 0 0 t).lengthSq = t ^ 2 := by
    simp [Vec3.lengthSq, Vec3.dot]; ring
  rw [Vec3.length, h, Real.sqrt_sq_eq_abs]

theorem Vec3.Normalize_unitz_pos (t : ℝ) (ht : 0 < t) :
    (Vec3.mk 0 0 t).Normalize = ⟨0, 0, 1⟩ := by
  have h := Vec3.length_unitz t
  rw [abs_of_pos ht] at h
  simp [Vec3.Normalize, h, div_self (ne_of_gt ht)]

theorem Vec3.Normalize_unitz_neg (t : ℝ) (ht : t < 0) :
    (Vec3.mk 0 0 t).Normalize = ⟨0, 0, -1⟩ := by
  have h := Vec3.length_unitz t
  rw [abs_of_neg ht] at h
  rw [Vec3.Normalize, h]
  have hne : t ≠ 0 := ne_of_lt ht
  field_simp

theorem setOpt_eq_some {α : Type} {l : List α} {i : ℕ} {a : α} {l' : List α}
    (h : setOpt l i a = some l') : i < l.length ∧ l' = l.set i a := by
  unfold setOpt at h
  split at h
  · exact ⟨by assumption, (Option.some.injEq _ _ ▸ h).symm⟩
  · exact absurd h (by simp)

theorem setOpt_of_lt {α : Type} {l : List α} {i : ℕ} (a : α) (h : i < l.length) :
    setOpt l i a = some (l.set i a) := by
  unfold setOpt
  exact if_pos h

theorem setOpt_length {α : Type} {l l' : List α} {i : ℕ} {a : α}
    (h : setOpt l i a = some l') : l'.length = l.length := by
  obtain ⟨-, rfl⟩ := setOpt_eq_some h
  exact List.length_set l i a

theorem listResize_length {α : Type} (l : List α) (n : ℕ) (d : α) :
    (listResize l n d).length = n := by
  simp [listResize]
  omega

/-! C7 and C8: the default constructors of ASEParser.h. -/

/-- C7 (code_bug evidence): the default Mesh constructor leaves mName empty
for every counter value — the stream text is never stored — so two
default-constructed meshes share the empty name, while the intended
generated names would have been distinct and non-empty. -/
theorem C7_default_name_bug :
    (ASE.MeshDefaultCtor 0).1.mName = "" ∧
    (ASE.MeshDefaultCtor 1).1.mName = (ASE.MeshDefaultCtor 0).1.mName ∧
    ASE.intendedDefaultName 0 ≠ ASE.intendedDefaultName 1 ∧
    ASE.intendedDefaultName 0 ≠ "" := by
  refine ⟨rfl, rfl, by decide, by decide⟩

/-- C8: a default-constructed Face has material index 0xFFFFFFFF (the
unassigned sentinel), color indices 0, UV indices 0 on all 8 channels and
sequence number 0. -/
theorem C8_face_defaults :
    ASE.FaceDefaultCtor.iMaterial = 0xFFFFFFFF ∧
    (∀ i : Fin 3, ASE.FaceDefaultCtor.mColorIndices i = 0) ∧
    (∀ ch : Fin 8, ∀ i : Fin 3, ASE.FaceDefaultCtor.amUVIndices ch i = 0) ∧
    ASE.FaceDefaultCtor.iFace = 0 :=
  ⟨rfl, fun _ => rfl, fun _ _ => rfl, rfl⟩


/-! Totality and length preservation of the pipeline under the
reconciliation invariant. -/

theorem flatNormalOf_isSome {pos : List Vec3} {f : ASE.Face}
    (h : ∀ c : Fin 3, f.mIndices c < pos.length) :
    (flatNormalOf pos f).isSome := by
  rw [flatNormalOf, List.getElem?_eq_getElem (h 0), Option.some_bind,
      List.getElem?_eq_getElem (h 1), Option.some_bind,
      List.getElem?_eq_getElem (h 2), Option.some_bind]
  rfl

theorem scatterFlat_length {pos : List Vec3} :
    ∀ {faces : List ASE.Face} {ns ns' : List Vec3},
      scatterFlat pos faces ns = some ns' → ns'.length = ns.length := by
  intro faces
  induction faces with
  | nil =>
    intro ns ns' h
    simp only [scatterFlat, Option.some.injEq] at h
    rw [h]
  | cons f rest ih =>
    intro ns ns' h
    simp only [scatterFlat, Option.bind_eq_some] at h
    obtain ⟨v, -, ns1, h1, ns2, h2, ns3, h3, hrec⟩ := h
    calc ns'.length = ns3.length := ih hrec
      _ = ns2.length := setOpt_length h3
      _ = ns1.length := setOpt_length h2
      _ = ns.length := setOpt_length h1

theorem scatterFlat_total {pos : List Vec3} :
    ∀ {faces : List ASE.Face} {ns : List Vec3},
      (∀ f ∈ faces, ∀ c : Fin 3, f.mIndices c < pos.length) →
      ns.length = pos.length →
      ∃ ns', scatterFlat pos faces ns = some ns' := by
  intro faces
  induction faces with
  | nil => exact fun _ _ => ⟨_, rfl⟩
  | cons f rest ih =>
    intro ns hb hlen
    have hf := hb f (List.mem_cons_self f rest)
    obtain ⟨v, hv⟩ := Option.isSome_iff_exists.mp (flatNormalOf_isSome hf)
    have h1 : setOpt ns (f.mIndices 0) v = some (ns.set (f.mIndices 0) v) :=
      setOpt_of_lt v (by rw [hlen]; exact hf 0)
    have hlen1 : (ns.set (f.mIndices 0) v).length = pos.length := by
      rw [List.length_set]; exact hlen
    have h2 := setOpt_of_lt (l := ns.set (f.mIndices 0) v) (i := f.mIndices 1) v
      (by rw [hlen1]; exact hf 1)
    have hlen2 : ((ns.set (f.mIndices 0) v).set (f.mIndices 1) v).length = pos.length := by
      rw [List.length_set]; exact hlen1
    have h3 := setOpt_of_lt (l := (ns.set (f.mIndices 0) v).set (f.mIndices 1) v)
      (i := f.mIndices 2) v (by rw [hlen2]; exact hf 2)
    have hlen3 : (((ns.set (f.mIndices 0) v).set (f.mIndices 1) v).set
        (f.mIndices 2) v).length = pos.length := by
      rw [List.length_set]; exact hlen2
    obtain ⟨ns', hrec⟩ :=
      ih (fun g hg => hb g (List.mem_cons_of_mem f hg)) hlen3
    refine ⟨ns', ?_⟩
    rw [scatterFlat, hv, Option.some_bind, h1, Option.some_bind, h2,
        Option.some_bind, h3, Option.some_bind, hrec]

theorem addFaceEntries_isSome {pos : List Vec3} {f : ASE.Face}
    (h : ∀ c : Fin 3, f.mIndices c < pos.length) :
    (addFaceEntries pos f).isSome := by
  rw [addFaceEntries, List.getElem?_eq_getElem (h 0), Option.some_bind,
      List.getElem?_eq_getElem (h 1), Option.some_bind,
      List.getElem?_eq_getElem (h 2), Option.some_bind]
  rfl

theorem addFaceEntries_index {pos : List Vec3} {f : ASE.Face} {es : List SGEntry}
    (h : addFaceEntries pos f = some es) :
    ∀ e ∈ es, ∃ c : Fin 3, e.mIndex = f.mIndices c := by
  simp only [addFaceEntries, Option.bind_eq_some] at h
  obtain ⟨p0, -, p1, -, p2, -, hes⟩ := h
  rw [Option.some.injEq] at hes
  intro e he
  rw [← hes] at he
  simp only [List.mem_cons, List.not_mem_nil, or_false] at he
  rcases he with h | h | h
  · exact ⟨0, by rw [h]⟩
  · exact ⟨1, by rw [h]⟩
  · exact ⟨2, by rw [h]⟩

theorem buildEntries_total {pos : List Vec3} :
    ∀ {faces : List ASE.Face},
      (∀ f ∈ faces, ∀ c : Fin 3, f.mIndices c < pos.length) →
      ∃ es, buildEntries pos faces = some es ∧
        ∀ e ∈ es, e.mIndex < pos.length := by
  intro faces
  induction faces with
  | nil => exact fun _ => ⟨[], rfl, by simp⟩
  | cons f rest ih =>
    intro hb
    have hf := hb f (List.mem_cons_self f rest)
    obtain ⟨esf, hesf⟩ := Option.isSome_iff_exists.mp (addFaceEntries_isSome hf)
    obtain ⟨tail, htail, htb⟩ := ih fun g hg => hb g (List.mem_cons_of_mem f hg)
    refine ⟨esf ++ tail, ?_, ?_⟩
    · rw [buildEntries, hesf, Option.some_bind, htail, Option.some_bind]
    · intro e he
      rcases List.mem_append.mp he with he | he
      · obtain ⟨c, hc⟩ := addFaceEntries_index hesf e he
        rw [hc]; exact hf c
      · exact htb e he

theorem sumNormalsAux_total {ns : List Vec3} :
    ∀ {l : List ℕ} {acc : Vec3}, (∀ i ∈ l, i < ns.length) →
      ∃ v, sumNormalsAux ns acc l = some v := by
  intro l
  induction l with
  | nil => exact fun _ => ⟨_, rfl⟩
  | cons i rest ih =>
    intro acc hb
    have hi := hb i (List.mem_cons_self i rest)
    obtain ⟨v, hv⟩ := @ih (Vec3.add acc (ns.get ⟨i, hi⟩))
      (fun j hj => hb j (List.mem_cons_of_mem i hj))
    refine ⟨v, ?_⟩
    rw [sumNormalsAux, List.getElem?_eq_getElem hi, Option.some_bind]
    rw [List.get_eq_getElem] at hv
    exact hv

theorem FindPositions_index_mem {prepared : List SGEntry} {P : Vec3} {M : ℕ}
    {eps : ℝ} {i : ℕ} (h : i ∈ FindPositions prepared P M eps) :
    ∃ e ∈ prepared, e.mIndex = i := by
  rw [FindPositions] at h
  obtain ⟨e, he, rfl⟩ := List.mem_map.mp h
  have h1 := List.mem_of_mem_filter he
  have h2 := (List.takeWhile_sublist _).subset h1
  have h3 := (List.dropWhile_sublist _).subset h2
  exact ⟨e, h3, rfl⟩

theorem Prepare_mem {l : List SGEntry} {e : SGEntry} (h : e ∈ Prepare l) : e ∈ l :=
  (List.perm_insertionSort SGkeyLE l).subset h

theorem cornerUpdate_total {pos mNormals : List Vec3} {prepared : List SGEntry}
    {eps : ℝ} {f : ASE.Face} {c : Fin 3} {av : List Vec3}
    (hfc : f.mIndices c < pos.length)
    (hprep : ∀ e ∈ prepared, e.mIndex < mNormals.length)
    (hav : av.length = pos.length) :
    ∃ av', cornerUpdate pos mNormals prepared eps f c av = some av' ∧
      av'.length = pos.length := by
  have hb : ∀ i ∈ FindPositions prepared (pos.get ⟨f.mIndices c, hfc⟩)
      f.iSmoothGroup eps, i < mNormals.length := by
    intro i hi
    obtain ⟨e, he, rfl⟩ := FindPositions_index_mem hi
    exact hprep e he
  obtain ⟨v, hv⟩ := @sumNormalsAux_total mNormals _ Vec3.zero hb
  refine ⟨av.set (f.mIndices c) v.Normalize, ?_, ?_⟩
  · rw [cornerUpdate, List.getElem?_eq_getElem hfc, Option.some_bind]
    rw [List.get_eq_getElem] at hv
    rw [hv, Option.some_bind, setOpt_of_lt _ (by rw [hav]; exact hfc)]
  · rw [List.length_set]; exact hav

theorem smoothLoop_total {pos mNormals : List Vec3} {prepared : List SGEntry}
    {eps : ℝ} :
    ∀ {faces : List ASE.Face} {av : List Vec3},
      (∀ f ∈ faces, ∀ c : Fin 3, f.mIndices c < pos.length) →
      (∀ e ∈ prepared, e.mIndex < mNormals.length) →
      av.length = pos.length →
      ∃ av', smoothLoop pos mNormals prepared eps faces av = some av' ∧
        av'.length = pos.length := by
  intro faces
  induction faces with
  | nil => exact fun _ _ hav => ⟨_, rfl, hav⟩
  | cons f rest ih =>
    intro av hb hprep hav
    have hf := hb f (List.mem_cons_self f rest)
    obtain ⟨av1, h1, hl1⟩ := @cornerUpdate_total pos mNormals prepared eps f 0 av (hf 0) hprep hav
    obtain ⟨av2, h2, hl2⟩ := @cornerUpdate_total pos mNormals prepared eps f 1 av1 (hf 1) hprep hl1
    obtain ⟨av3, h3, hl3⟩ := @cornerUpdate_total pos mNormals prepared eps f 2 av2 (hf 2) hprep hl2
    obtain ⟨av', hrec, hl'⟩ :=
      ih (fun g hg => hb g (List.mem_cons_of_mem f hg)) hprep hl3
    refine ⟨av', ?_, hl'⟩
    rw [smoothLoop, h1, Option.some_bind, h2, Option.some_bind, h3,
      Option.some_bind, hrec]

theorem ComputeNormals_total {m : ASE.Mesh} (h : FacesInBounds m) :
    ∃ av, ComputeNormalsWithSmoothingsGroups m = some { m with mNormals := av } ∧
      av.length = m.mPositions.length := by
  obtain ⟨ns1, hns1⟩ := scatterFlat_total h
    (listResize_length m.mNormals m.mPositions.length Vec3.zero)
  have hlen1 : ns1.length = m.mPositions.length := by
    rw [scatterFlat_length hns1, listResize_length]
  obtain ⟨es, hes, heb⟩ := buildEntries_total h
  obtain ⟨av, hav, hlav⟩ := @smoothLoop_total m.mPositions ns1 (Prepare es)
    (posEpsilonOf m.mPositions) m.mFaces (List.replicate ns1.length Vec3.zero) h
    (fun e he => by rw [hlen1]; exact heb e (Prepare_mem he))
    (by rw [List.length_replicate]; exact hlen1)
  refine ⟨av, ?_, hlav⟩
  rw [ComputeNormalsWithSmoothingsGroups]
  rw [hns1, Option.some_bind, hes, Option.some_bind, hav, Option.some_bind]

/-! The mask-0 query and the C3, C9, C6 claims. -/

theorem FindPositions_sg_zero (prepared : List SGEntry) (P : Vec3) (eps : ℝ) :
    FindPositions prepared P 0 eps = [] := by
  simp only [FindPositions]
  rw [List.filter_eq_nil_iff.mpr ?_]
  · rfl
  · intro e he
    simp [matchesQuery, Nat.and_zero]

/-- C3: for every mesh satisfying the reconciliation invariant, the normal
generator succeeds and produces exactly one output normal per position. -/
theorem C3_normals_length (m : ASE.Mesh) (h : FacesInBounds m) :
    ∃ mr, ComputeNormalsWithSmoothingsGroups m = some mr ∧
      mr.mNormals.length = m.mPositions.length := by
  obtain ⟨av, hav, hlen⟩ := ComputeNormals_total h
  exact ⟨_, hav, hlen⟩

/-- Witness for C3 at the concrete mesh TRI0. -/
theorem C3_witness : FacesInBounds TRI0 ∧
    ∃ mr, ComputeNormalsWithSmoothingsGroups TRI0 = some mr ∧
      mr.mNormals.length = TRI0.mPositions.length :=
  ⟨by decide, C3_normals_length TRI0 (by decide)⟩

/-- C9: under the reconciliation invariant every position-sequence and
normal-buffer access of the normal generator is in bounds — the
Option-returning embedding cannot return none. -/
theorem C9_accesses_in_bounds (m : ASE.Mesh) (h : FacesInBounds m) :
    (ComputeNormalsWithSmoothingsGroups m).isSome := by
  obtain ⟨av, hav, -⟩ := ComputeNormals_total h
  rw [hav]
  rfl

/-- Witness for C9 at the concrete mesh TRI0. -/
theorem C9_witness : FacesInBounds TRI0 ∧
    (ComputeNormalsWithSmoothingsGroups TRI0).isSome :=
  ⟨by decide, C9_accesses_in_bounds TRI0 (by decide)⟩

/-- C6: the normal generator modifies only the normal sequence — every
other field of the mesh is returned unchanged (and, being a pure function
of its one mesh argument, the result depends on nothing else). -/
theorem C6_only_normals_modified (m mr : ASE.Mesh)
    (h : ComputeNormalsWithSmoothingsGroups m = some mr) :
    mr.mName = m.mName ∧ mr.mPositions = m.mPositions ∧ mr.mFaces = m.mFaces ∧
    mr.amTexCoords = m.amTexCoords ∧ mr.mVertexColors = m.mVertexColors ∧
    mr.mTransform = m.mTransform ∧ mr.iMaterialIndex = m.iMaterialIndex ∧
    mr.mNumUVComponents = m.mNumUVComponents := by
  simp only [ComputeNormalsWithSmoothingsGroups, Option.bind_eq_some] at h
  obtain ⟨ns1, -, es, -, av, -, hmr⟩ := h
  rw [Option.some.injEq] at hmr
  rw [← hmr]
  exact ⟨rfl, rfl, rfl, rfl, rfl, rfl, rfl, rfl⟩

/-! Concrete evaluation of the normal generator on TRI0. -/

theorem eval_TRI0 : ComputeNormalsWithSmoothingsGroups TRI0 = some TRI0R := by
  have hv : Vec3.cross (Vec3.sub ⟨3, 0, 0⟩ ⟨0, 0, 0⟩) (Vec3.sub ⟨0, 4, 0⟩ ⟨0, 0, 0⟩)
      = (⟨0, 0, 12⟩ : Vec3) := by
    simp only [Vec3.cross, Vec3.sub, Vec3.mk.injEq]
    norm_num
  have hsc : scatterFlat TRI0.mPositions TRI0.mFaces
      (listResize TRI0.mNormals TRI0.mPositions.length Vec3.zero)
      = some [⟨0, 0, 12⟩, ⟨0, 0, 12⟩, ⟨0, 0, 12⟩, Vec3.zero] := by
    rw [← hv]
    rfl
  have hbe : buildEntries TRI0.mPositions TRI0.mFaces = some
      [⟨⟨0, 0, 0⟩, 0, 0⟩, ⟨⟨3, 0, 0⟩, 1, 0⟩, ⟨⟨0, 4, 0⟩, 2, 0⟩] := rfl
  have hsg : (mkFace 0 1 2 0).iSmoothGroup = 0 := rfl
  have hfaces : TRI0.mFaces = [mkFace 0 1 2 0] := rfl
  have hsl : ∀ (prep : List SGEntry) (eps : ℝ),
      smoothLoop TRI0.mPositions [⟨0, 0, 12⟩, ⟨0, 0, 12⟩, ⟨0, 0, 12⟩, Vec3.zero]
        prep eps TRI0.mFaces
        (List.replicate
          ([⟨0, 0, 12⟩, ⟨0, 0, 12⟩, ⟨0, 0, 12⟩, Vec3.zero] : List Vec3).length
          Vec3.zero)
      = some [Vec3.zero, Vec3.zero, Vec3.zero, Vec3.zero] := by
    intro prep eps
    simp only [hfaces, smoothLoop, cornerUpdate, hsg, FindPositions_sg_zero,
      sumNormalsAux, Vec3.Normalize_zero, Option.some_bind]
    rfl
  simp only [ComputeNormalsWithSmoothingsGroups]
  rw [hsc, Option.some_bind, hbe, Option.some_bind, hsl, Option.some_bind]
  rfl

/-! Slots that no face references, and slots referenced only by mask-0
faces. -/

theorem cornerUpdate_preserves {pos ns : List Vec3} {prep : List SGEntry}
    {eps : ℝ} {f : ASE.Face} {c : Fin 3} {av av' : List Vec3} {idx : ℕ}
    (h : cornerUpdate pos ns prep eps f c av = some av')
    (hne : f.mIndices c ≠ idx) : av'[idx]? = av[idx]? := by
  simp only [cornerUpdate, Option.bind_eq_some] at h
  obtain ⟨p, -, v, -, hset⟩ := h
  obtain ⟨-, rfl⟩ := setOpt_eq_some hset
  exact List.getElem?_set_ne hne

theorem smoothLoop_not_ref {pos ns : List Vec3} {prep : List SGEntry} {eps : ℝ}
    {idx : ℕ} :
    ∀ {faces : List ASE.Face} {av av' : List Vec3},
      smoothLoop pos ns prep eps faces av = some av' →
      (∀ g ∈ faces, ∀ c : Fin 3, g.mIndices c ≠ idx) →
      av'[idx]? = av[idx]? := by
  intro faces
  induction faces with
  | nil =>
    intro av av' h _
    simp only [smoothLoop, Option.some.injEq] at h
    rw [h]
  | cons f rest ih =>
    intro av av' h hn
    simp only [smoothLoop, Option.bind_eq_some] at h
    obtain ⟨av1, h1, av2, h2, av3, h3, hrec⟩ := h
    have hf := hn f (List.mem_cons_self f rest)
    calc av'[idx]? = av3[idx]? := ih hrec fun g hg => hn g (List.mem_cons_of_mem f hg)
      _ = av2[idx]? := cornerUpdate_preserves h3 (hf 2)
      _ = av1[idx]? := cornerUpdate_preserves h2 (hf 1)
      _ = av[idx]? := cornerUpdate_preserves h1 (hf 0)

theorem cornerUpdate_zero_mask {pos ns : List Vec3} {prep : List SGEntry}
    {eps : ℝ} {f : ASE.Face} {c : Fin 3} {av av' : List Vec3} {idx : ℕ}
    (h : cornerUpdate pos ns prep eps f c av = some av')
    (hz : av[idx]? = some Vec3.zero)
    (hcase : f.mIndices c = idx → f.iSmoothGroup = 0) :
    av'[idx]? = some Vec3.zero := by
  by_cases hne : f.mIndices c = idx
  · simp only [cornerUpdate, hcase hne, FindPositions_sg_zero, sumNormalsAux,
      Option.some_bind, Vec3.Normalize_zero, Option.bind_eq_some] at h
    obtain ⟨p, -, hset⟩ := h
    obtain ⟨-, rfl⟩ := setOpt_eq_some hset
    rw [hne]
    rw [List.getElem?_set_self]
    obtain ⟨hlt, -⟩ := List.getElem?_eq_some_iff.mp hz
    exact hlt
  · rw [cornerUpdate_preserves h hne]
    exact hz

theorem smoothLoop_zero_mask {pos ns : List Vec3} {prep : List SGEntry}
    {eps : ℝ} {idx : ℕ} :
    ∀ {faces : List ASE.Face} {av av' : List Vec3},
      smoothLoop pos ns prep eps faces av = some av' →
      av[idx]? = some Vec3.zero →
      (∀ g ∈ faces, (∃ c : Fin 3, g.mIndices c = idx) → g.iSmoothGroup = 0) →
      av'[idx]? = some Vec3.zero := by
  intro faces
  induction faces with
  | nil =>
    intro av av' h hz _
    simp only [smoothLoop, Option.some.injEq] at h
    rw [← h]
    exact hz
  | cons f rest ih =>
    intro av av' h hz hm
    simp only [smoothLoop, Option.bind_eq_some] at h
    obtain ⟨av1, h1, av2, h2, av3, h3, hrec⟩ := h
    have hf : ∀ c : Fin 3, f.mIndices c = idx → f.iSmoothGroup = 0 :=
      fun c hc => hm f (List.mem_cons_self f rest) ⟨c, hc⟩
    have z1 := cornerUpdate_zero_mask h1 hz (hf 0)
    have z2 := cornerUpdate_zero_mask h2 z1 (hf 1)
    have z3 := cornerUpdate_zero_mask h3 z2 (hf 2)
    exact ih hrec z3 fun g hg => hm g (List.mem_cons_of_mem f hg)

/-- C10: a position index referenced by no face keeps the zero vector as
its output normal — the fresh output buffer is zero-initialized and only
face-referenced slots are written. -/
theorem C10_unreferenced_zero (m mr : ASE.Mesh)
    (h : ComputeNormalsWithSmoothingsGroups m = some mr) (idx : ℕ)
    (hidx : idx < m.mPositions.length)
    (hun : ∀ f ∈ m.mFaces, ∀ c : Fin 3, f.mIndices c ≠ idx) :
    mr.mNormals[idx]? = some Vec3.zero := by
  simp only [ComputeNormalsWithSmoothingsGroups, Option.bind_eq_some] at h
  obtain ⟨ns1, hns1, es, hes, av, hav, hmr⟩ := h
  rw [Option.some.injEq] at hmr
  have hlen1 : ns1.length = m.mPositions.length := by
    rw [scatterFlat_length hns1, listResize_length]
  rw [← hmr]
  show av[idx]? = some Vec3.zero
  rw [smoothLoop_not_ref hav hun]
  exact List.getElem?_replicate_of_lt (by rw [hlen1]; exact hidx)

/-- Witness for C10: the fourth position of TRI0 is referenced by no face
and its output normal is the zero vector. -/
theorem C10_witness :
    ComputeNormalsWithSmoothingsGroups TRI0 = some TRI0R ∧
    3 < TRI0.mPositions.length ∧
    TRI0R.mNormals[3]? = some Vec3.zero :=
  ⟨eval_TRI0, by decide,
    C10_unreferenced_zero TRI0 TRI0R eval_TRI0 3 (by decide) (by decide)⟩

/-- C1 (amended): a corner with smoothing mask 0 matches no index entry at
all — not even its own, since 0 AND 0 = 0 fails the shared-bit test — so a
position slot all of whose referencing faces carry mask 0 receives the
normalization of the empty sum, the zero vector (and in particular is never
merged with any other corner). It does not receive its face's flat
normal. -/
theorem C1_amended_mask0_zero_normal (m mr : ASE.Mesh)
    (h : ComputeNormalsWithSmoothingsGroups m = some mr) (idx : ℕ)
    (hidx : idx < m.mPositions.length)
    (hmask : ∀ f ∈ m.mFaces, (∃ c : Fin 3, f.mIndices c = idx) → f.iSmoothGroup = 0) :
    mr.mNormals[idx]? = some Vec3.zero := by
  simp only [ComputeNormalsWithSmoothingsGroups, Option.bind_eq_some] at h
  obtain ⟨ns1, hns1, es, hes, av, hav, hmr⟩ := h
  rw [Option.some.injEq] at hmr
  have hlen1 : ns1.length = m.mPositions.length := by
    rw [scatterFlat_length hns1, listResize_length]
  rw [← hmr]
  show av[idx]? = some Vec3.zero
  exact smoothLoop_zero_mask hav
    (List.getElem?_replicate_of_lt (by rw [hlen1]; exact hidx)) hmask

/-- Witness for the amended C1 at TRI0: position slot 0 is referenced only
by the mask-0 face and its output normal is the zero vector. -/
theorem C1_amended_witness :
    ComputeNormalsWithSmoothingsGroups TRI0 = some TRI0R ∧
    0 < TRI0.mPositions.length ∧
    TRI0R.mNormals[0]? = some Vec3.zero :=
  ⟨eval_TRI0, by decide,
    C1_amended_mask0_zero_normal TRI0 TRI0R eval_TRI0 0 (by decide) (by decide)⟩

/-- C1 (counterexample to the claim as stated): on TRI0 the mask-0 corner
at position slot 0 receives the zero vector, while its own face's
normalized flat normal is (0,0,1) — the two differ, so a mask-0 corner does
not receive its face's flat normal. -/
theorem C1_counterexample :
    ComputeNormalsWithSmoothingsGroups TRI0 = some TRI0R ∧
    TRI0R.mNormals[0]? = some Vec3.zero ∧
    (Vec3.cross (Vec3.sub ⟨3, 0, 0⟩ ⟨0, 0, 0⟩)
        (Vec3.sub ⟨0, 4, 0⟩ ⟨0, 0, 0⟩)).Normalize = ⟨0, 0, 1⟩ ∧
    Vec3.zero ≠ (⟨0, 0, 1⟩ : Vec3) := by
  refine ⟨eval_TRI0, rfl, ?_, ?_⟩
  · have hv : Vec3.cross (Vec3.sub ⟨3, 0, 0⟩ ⟨0, 0, 0⟩)
        (Vec3.sub ⟨0, 4, 0⟩ ⟨0, 0, 0⟩) = (⟨0, 0, 12⟩ : Vec3) := by
      simp only [Vec3.cross, Vec3.sub, Vec3.mk.injEq]
      norm_num
    rw [hv]
    exact Vec3.Normalize_unitz_pos 12 (by norm_num)
  · simp only [Vec3.zero, ne_eq, Vec3.mk.injEq]
    norm_num

/-- Witness for C6 at TRI0: every non-normal field of the output mesh
equals the input's. -/
theorem C6_witness :
    TRI0R.mName = TRI0.mName ∧ TRI0R.mPositions = TRI0.mPositions ∧
    TRI0R.mFaces = TRI0.mFaces ∧ TRI0R.amTexCoords = TRI0.amTexCoords ∧
    TRI0R.mVertexColors = TRI0.mVertexColors ∧
    TRI0R.mTransform = TRI0.mTransform ∧
    TRI0R.iMaterialIndex = TRI0.iMaterialIndex ∧
    TRI0R.mNumUVComponents = TRI0.mNumUVComponents :=
  C6_only_normals_modified TRI0 TRI0R eval_TRI0

/-! C4: the flat-normal scatter phase. -/

theorem scatterFlat_append {pos : List Vec3} :
    ∀ (l1 l2 : List ASE.Face) (ns : List Vec3),
      scatterFlat pos (l1 ++ l2) ns =
        (scatterFlat pos l1 ns).bind (scatterFlat pos l2) := by
  intro l1
  induction l1 with
  | nil => intro l2 ns; rfl
  | cons f rest ih =>
    intro l2 ns
    show scatterFlat pos (f :: (rest ++ l2)) ns = _
    rw [scatterFlat, scatterFlat]
    cases flatNormalOf pos f with
    | none => rfl
    | some v =>
      rw [Option.some_bind, Option.some_bind]
      cases setOpt ns (f.mIndices 0) v with
      | none => rfl
      | some ns1 =>
        rw [Option.some_bind, Option.some_bind]
        cases setOpt ns1 (f.mIndices 1) v with
        | none => rfl
        | some ns2 =>
          rw [Option.some_bind, Option.some_bind]
          cases setOpt ns2 (f.mIndices 2) v with
          | none => rfl
          | some ns3 =>
            rw [Option.some_bind, Option.some_bind]
            exact ih l2 ns3

theorem scatterFlat_not_ref {pos : List Vec3} {idx : ℕ} :
    ∀ {faces : List ASE.Face} {ns ns' : List Vec3},
      scatterFlat pos faces ns = some ns' →
      (∀ g ∈ faces, ∀ c : Fin 3, g.mIndices c ≠ idx) →
      ns'[idx]? = ns[idx]? := by
  intro faces
  induction faces with
  | nil =>
    intro ns ns' h _
    simp only [scatterFlat, Option.some.injEq] at h
    rw [h]
  | cons f rest ih =>
    intro ns ns' h hn
    simp only [scatterFlat, Option.bind_eq_some] at h
    obtain ⟨v, -, ns1, h1, ns2, h2, ns3, h3, hrec⟩ := h
    have hf := hn f (List.mem_cons_self f rest)
    obtain ⟨-, rfl⟩ := setOpt_eq_some h1
    obtain ⟨-, rfl⟩ := setOpt_eq_some h2
    obtain ⟨-, rfl⟩ := setOpt_eq_some h3
    rw [ih hrec fun g hg => hn g (List.mem_cons_of_mem f hg),
      List.getElem?_set_ne (hf 2), List.getElem?_set_ne (hf 1),
      List.getElem?_set_ne (hf 0)]

/-- C4: after the first phase, the scratch slot of any position index
referenced by face f — provided no later face references it — holds f's
unnormalized flat normal, the cross product
(P[i1] - P[i0]) x (P[i2] - P[i0]) of the two edge vectors (the value
written into each of f's three slots; later writers overwrite earlier
ones). -/
theorem C4_flat_normal_scatter (pos : List Vec3) (pre post : List ASE.Face)
    (f : ASE.Face) (ns0 ns' : List Vec3) (c : Fin 3)
    (h : scatterFlat pos (pre ++ f :: post) ns0 = some ns')
    (hlast : ∀ g ∈ post, ∀ c' : Fin 3, g.mIndices c' ≠ f.mIndices c) :
    ns'[f.mIndices c]? = flatNormalOf pos f := by
  rw [scatterFlat_append] at h
  rw [Option.bind_eq_some] at h
  obtain ⟨ns1, -, h⟩ := h
  simp only [scatterFlat, Option.bind_eq_some] at h
  obtain ⟨v, hv, m1, hm1, m2, hm2, m3, hm3, hrec⟩ := h
  rw [scatterFlat_not_ref hrec hlast]
  obtain ⟨hl1, rfl⟩ := setOpt_eq_some hm1
  obtain ⟨hl2, rfl⟩ := setOpt_eq_some hm2
  obtain ⟨hl3, rfl⟩ := setOpt_eq_some hm3
  rw [hv]
  by_cases h2 : f.mIndices 2 = f.mIndices c
  · rw [← h2]
    exact List.getElem?_set_self (by simpa using hl3)
  · rw [List.getElem?_set_ne fun hc => h2 hc]
    by_cases h1 : f.mIndices 1 = f.mIndices c
    · rw [← h1]
      exact List.getElem?_set_self (by simpa using hl2)
    · rw [List.getElem?_set_ne fun hc => h1 hc]
      have h0 : f.mIndices 0 = f.mIndices c := by
        fin_cases c
        · rfl
        · exact absurd rfl h1
        · exact absurd rfl h2
      rw [← h0]
      exact List.getElem?_set_self hl1

/-- Witness for C4: the single face of TRI0 is trivially the last writer of
slot 0, and that slot holds the face's flat normal (0,0,12). -/
theorem C4_witness :
    scatterFlat TRI0.mPositions [mkFace 0 1 2 0]
        [Vec3.zero, Vec3.zero, Vec3.zero, Vec3.zero]
      = some [⟨0, 0, 12⟩, ⟨0, 0, 12⟩, ⟨0, 0, 12⟩, Vec3.zero] ∧
    ([⟨0, 0, 12⟩, ⟨0, 0, 12⟩, ⟨0, 0, 12⟩, Vec3.zero] :
        List Vec3)[(mkFace 0 1 2 0).mIndices 0]?
      = flatNormalOf TRI0.mPositions (mkFace 0 1 2 0) := by
  have hv : Vec3.cross (Vec3.sub ⟨3, 0, 0⟩ ⟨0, 0, 0⟩) (Vec3.sub ⟨0, 4, 0⟩ ⟨0, 0, 0⟩)
      = (⟨0, 0, 12⟩ : Vec3) := by
    simp only [Vec3.cross, Vec3.sub, Vec3.mk.injEq]
    norm_num
  have hsc : scatterFlat TRI0.mPositions [mkFace 0 1 2 0]
      [Vec3.zero, Vec3.zero, Vec3.zero, Vec3.zero]
      = some [⟨0, 0, 12⟩, ⟨0, 0, 12⟩, ⟨0, 0, 12⟩, Vec3.zero] := by
    rw [← hv]
    rfl
  exact ⟨hsc,
    C4_flat_normal_scatter TRI0.mPositions [] [] (mkFace 0 1 2 0) _ _ 0 hsc
      (fun g hg => absurd hg (List.not_mem_nil g))⟩

/-! C5: the welding epsilon versus the bounding-box diagonal. -/

theorem Vec3.length_unitx (t : ℝ) (ht : 0 ≤ t) : (Vec3.mk t 0 0).length = t := by
  have h : (Vec3.mk t 0 0).lengthSq = t ^ 2 := by
    simp [Vec3.lengthSq, Vec3.dot]
    ring
  rw [Vec3.length, h, Real.sqrt_sq ht]

/-- C5 (amended): for a nonempty position sequence whose coordinates all lie
within the sentinel range [-1e10, 1e10] that initializes the min/max folds,
the welding epsilon equals the bounding-box diagonal length times 1e-5. -/
theorem C5_amended_epsilon_formula :
    ∀ (pos : List Vec3), pos ≠ [] →
      (∀ p ∈ pos, |p.x| ≤ 1e10 ∧ |p.y| ≤ 1e10 ∧ |p.z| ≤ 1e10) →
      ∃ d, specAABBDiagLen pos = some d ∧ posEpsilonOf pos = d * 1e-5
  | [], hne, _ => absurd rfl hne
  | p :: rest, _, hrange => by
    obtain ⟨hx, hy, hz⟩ := hrange p (List.mem_cons_self p rest)
    have hinitmin : Vec3.mk (min 1e10 p.x) (min 1e10 p.y) (min 1e10 p.z) = p := by
      rw [min_eq_right (abs_le.mp hx).2, min_eq_right (abs_le.mp hy).2,
        min_eq_right (abs_le.mp hz).2]
    have hinitmax : Vec3.mk (max (-1e10) p.x) (max (-1e10) p.y)
        (max (-1e10) p.z) = p := by
      rw [max_eq_right (abs_le.mp hx).1, max_eq_right (abs_le.mp hy).1,
        max_eq_right (abs_le.mp hz).1]
    have hmin : minVecOf (p :: rest) =
        rest.foldl (fun m q => ⟨min m.x q.x, min m.y q.y, min m.z q.z⟩) p := by
      rw [minVecOf, List.foldl_cons]
      congr 1
    have hmax : maxVecOf (p :: rest) =
        rest.foldl (fun m q => ⟨max m.x q.x, max m.y q.y, max m.z q.z⟩) p := by
      rw [maxVecOf, List.foldl_cons]
      congr 1
    refine ⟨(Vec3.sub
        (rest.foldl (fun m q => ⟨max m.x q.x, max m.y q.y, max m.z q.z⟩) p)
        (rest.foldl (fun m q => ⟨min m.x q.x, min m.y q.y, min m.z q.z⟩) p)).length,
      ?_, ?_⟩
    · simp only [specAABBDiagLen, specAABBMin, specAABBMax, Option.some_bind]
    · rw [posEpsilonOf, hmin, hmax]

/-- Witness for the amended C5 at the positions of TRI0 (diagonal 5,
epsilon 5e-5). -/
theorem C5_witness :
    TRI0.mPositions ≠ [] ∧
    (∀ p ∈ TRI0.mPositions, |p.x| ≤ 1e10 ∧ |p.y| ≤ 1e10 ∧ |p.z| ≤ 1e10) ∧
    ∃ d, specAABBDiagLen TRI0.mPositions = some d ∧
      posEpsilonOf TRI0.mPositions = d * 1e-5 := by
  have hrange : ∀ p ∈ TRI0.mPositions, |p.x| ≤ 1e10 ∧ |p.y| ≤ 1e10 ∧ |p.z| ≤ 1e10 := by
    intro p hp
    simp only [TRI0] at hp
    fin_cases hp <;> norm_num
  refine ⟨by simp [TRI0], hrange, C5_amended_epsilon_formula TRI0.mPositions (by simp [TRI0]) hrange⟩

/-- C5 (counterexample to the claim as stated): on FARPOS, whose
coordinates exceed the 1e10 sentinel, the bounding-box diagonal is 1e10 but
the code's epsilon is 2e5 = 2e10 * 1e-5, not 1e10 * 1e-5 — the minimum fold
never descends below its 1e10 sentinel. -/
theorem C5_epsilon_counterexample :
    specAABBDiagLen FARPOS = some (1e10 : ℝ) ∧
    posEpsilonOf FARPOS = 2e5 ∧
    (2e5 : ℝ) ≠ 1e10 * 1e-5 := by
  have hd : specAABBDiagLen FARPOS = some ((Vec3.mk 1e10 0 0).length) := by
    simp only [FARPOS, specAABBDiagLen, specAABBMin, specAABBMax,
      List.foldl_cons, List.foldl_nil, Option.some_bind, Option.some.injEq]
    norm_num [min_def, max_def, Vec3.sub]
  have he : posEpsilonOf FARPOS = (Vec3.mk 2e10 0 0).length * 1e-5 := by
    rw [posEpsilonOf]
    congr 2
    simp only [FARPOS, minVecOf, maxVecOf, List.foldl_cons, List.foldl_nil]
    norm_num [min_def, max_def, Vec3.sub]
  refine ⟨?_, ?_, by norm_num⟩
  · rw [hd, Vec3.length_unitx 1e10 (by norm_num)]
  · rw [he, Vec3.length_unitx 2e10 (by norm_num)]
    norm_num

/-! The query characterization: FindPositions on the prepared (sorted) list
returns, up to permutation, exactly the entries accepted by the distance
and mask tests — the projection window never excludes an accepted entry
because the projection direction has length at most 1. -/

theorem Vec3.dot_sub_left (a b n : Vec3) :
    Vec3.dot (Vec3.sub a b) n = Vec3.dot a n - Vec3.dot b n := by
  simp only [Vec3.dot, Vec3.sub]
  ring

theorem abs_dot_planeNormal_le_length (d : Vec3) :
    |Vec3.dot d planeNormal| ≤ d.length := by
  have h1 : (Vec3.dot d planeNormal) ^ 2 ≤ d.lengthSq := by
    simp only [Vec3.dot, Vec3.lengthSq, planeNormal]
    nlinarith [sq_nonneg (d.x - d.y), sq_nonneg (d.y - d.z), sq_nonneg (d.x - d.z),
      sq_nonneg d.x, sq_nonneg d.y, sq_nonneg d.z]
  calc |Vec3.dot d planeNormal| = Real.sqrt ((Vec3.dot d planeNormal) ^ 2) :=
        (Real.sqrt_sq_eq_abs _).symm
    _ ≤ Real.sqrt d.lengthSq := Real.sqrt_le_sqrt h1
    _ = d.length := rfl

theorem key_bound {e : SGEntry} {P : Vec3} {eps : ℝ}
    (h : (Vec3.sub e.mPosition P).length ≤ eps) :
    Vec3.dot P planeNormal - eps ≤ e.key ∧
      e.key ≤ Vec3.dot P planeNormal + eps := by
  have habs : |e.key - Vec3.dot P planeNormal| ≤ eps := by
    have := abs_dot_planeNormal_le_length (Vec3.sub e.mPosition P)
    rw [Vec3.dot_sub_left] at this
    exact le_trans this h
  obtain ⟨hl, hr⟩ := abs_le.mp habs
  constructor
  · linarith
  · linarith

theorem dropWhile_sorted_filter {lo : ℝ} :
    ∀ {S : List SGEntry}, List.Pairwise SGkeyLE S →
      S.dropWhile (fun e => decide (e.key < lo)) =
      S.filter (fun e => !decide (e.key < lo)) := by
  intro S
  induction S with
  | nil => intro _; rfl
  | cons a t ih =>
    intro hp
    obtain ⟨hall, ht⟩ := List.pairwise_cons.mp hp
    by_cases ha : a.key < lo
    · rw [List.dropWhile_cons_of_pos (by simpa using ha),
        List.filter_cons_of_neg (by simpa using ha)]
      exact ih ht
    · rw [List.dropWhile_cons_of_neg (by simpa using ha),
        List.filter_cons_of_pos (by simpa using ha),
        List.filter_eq_self.mpr]
      intro b hb
      have hab : a.key ≤ b.key := hall b hb
      simpa using not_lt.mpr (le_trans (not_lt.mp ha) hab)

theorem takeWhile_sorted_filter {hi : ℝ} :
    ∀ {S : List SGEntry}, List.Pairwise SGkeyLE S →
      S.takeWhile (fun e => decide (e.key ≤ hi)) =
      S.filter (fun e => decide (e.key ≤ hi)) := by
  intro S
  induction S with
  | nil => intro _; rfl
  | cons a t ih =>
    intro hp
    obtain ⟨hall, ht⟩ := List.pairwise_cons.mp hp
    by_cases ha : a.key ≤ hi
    · rw [List.takeWhile_cons_of_pos (by simpa using ha),
        List.filter_cons_of_pos (by simpa using ha)]
      rw [ih ht]
    · rw [List.takeWhile_cons_of_neg (by simpa using ha),
        List.filter_cons_of_neg (by simpa using ha),
        List.filter_eq_nil_iff.mpr]
      intro b hb
      have hab : a.key ≤ b.key := hall b hb
      simpa using not_le.mpr (lt_of_lt_of_le (not_le.mp ha) hab)

theorem filter_filter_of_imp {α : Type} (p q : α → Bool)
    (himp : ∀ a, q a = true → p a = true) :
    ∀ l : List α, (l.filter p).filter q = l.filter q := by
  intro l
  induction l with
  | nil => rfl
  | cons a t ih =>
    by_cases hq : q a = true
    · rw [List.filter_cons_of_pos (himp a hq), List.filter_cons_of_pos hq,
        List.filter_cons_of_pos hq, ih]
    · by_cases hp : p a = true
      · rw [List.filter_cons_of_pos hp, List.filter_cons_of_neg hq,
          List.filter_cons_of_neg hq, ih]
      · rw [List.filter_cons_of_neg hp, List.filter_cons_of_neg hq, ih]

theorem FindPositions_perm (L : List SGEntry) (P : Vec3) (M : ℕ) (eps : ℝ) :
    List.Perm (FindPositions (Prepare L) P M eps)
      ((L.filter fun e => decide (matchesQuery P M eps e)).map SGEntry.mIndex) := by
  have hperm : List.Perm (Prepare L) L := List.perm_insertionSort SGkeyLE L
  have hsorted : List.Pairwise SGkeyLE (Prepare L) := List.sorted_insertionSort SGkeyLE L
  have himp_hi : ∀ e : SGEntry, decide (matchesQuery P M eps e) = true →
      decide (e.key ≤ Vec3.dot P planeNormal + eps) = true := by
    intro e he
    rw [decide_eq_true_eq] at he
    exact decide_eq_true (key_bound he.1).2
  have himp_lo : ∀ e : SGEntry, decide (matchesQuery P M eps e) = true →
      (!decide (e.key < Vec3.dot P planeNormal - eps)) = true := by
    intro e he
    rw [decide_eq_true_eq] at he
    simpa using not_lt.mpr (key_bound he.1).1
  simp only [FindPositions]
  rw [dropWhile_sorted_filter hsorted,
    takeWhile_sorted_filter (List.Pairwise.filter _ hsorted),
    filter_filter_of_imp _ _ himp_hi,
    filter_filter_of_imp _ _ himp_lo]
  exact (hperm.filter _).map _

theorem sumNormalsAux_perm {ns : List Vec3} {l l' : List ℕ}
    (h : List.Perm l l') :
    ∀ acc, sumNormalsAux ns acc l = sumNormalsAux ns acc l' := by
  induction h with
  | nil => intro _; rfl
  | cons x _ ih =>
    intro acc
    rw [sumNormalsAux, sumNormalsAux]
    cases ns[x]? with
    | none => rfl
    | some v =>
      rw [Option.some_bind, Option.some_bind]
      exact ih _
  | swap x y l =>
    intro acc
    rw [sumNormalsAux, sumNormalsAux]
    cases hy : ns[y]? with
    | none =>
      cases hx : ns[x]? with
      | none => rfl
      | some vx =>
        rw [Option.none_bind, Option.some_bind, sumNormalsAux, hy, Option.none_bind]
    | some vy =>
      cases hx : ns[x]? with
      | none =>
        rw [Option.some_bind, sumNormalsAux, hx, Option.none_bind, Option.none_bind]
      | some vx =>
        rw [Option.some_bind, Option.some_bind, sumNormalsAux, sumNormalsAux, hx, hy,
          Option.some_bind, Option.some_bind, Vec3.add_add_swap]
  | trans _ _ ih1 ih2 =>
    intro acc
    rw [ih1, ih2]

theorem sumOverQuery_eq (L : List SGEntry) (ns : List Vec3) (P : Vec3) (M : ℕ)
    (eps : ℝ) :
    sumNormalsAux ns Vec3.zero (FindPositions (Prepare L) P M eps) =
      sumNormalsAux ns Vec3.zero
        ((L.filter fun e => decide (matchesQuery P M eps e)).map SGEntry.mIndex) :=
  sumNormalsAux_perm (FindPositions_perm L P M eps) Vec3.zero

/-! C2: the per-corner output formula. -/

theorem smoothLoop_append {pos ns : List Vec3} {prep : List SGEntry} {eps : ℝ} :
    ∀ (l1 l2 : List ASE.Face) (av : List Vec3),
      smoothLoop pos ns prep eps (l1 ++ l2) av =
        (smoothLoop pos ns prep eps l1 av).bind (smoothLoop pos ns prep eps l2) := by
  intro l1
  induction l1 with
  | nil => intro l2 av; rfl
  | cons f rest ih =>
    intro l2 av
    show smoothLoop pos ns prep eps (f :: (rest ++ l2)) av = _
    rw [smoothLoop, smoothLoop]
    cases cornerUpdate pos ns prep eps f 0 av with
    | none => rfl
    | some av1 =>
      rw [Option.some_bind, Option.some_bind]
      cases cornerUpdate pos ns prep eps f 1 av1 with
      | none => rfl
      | some av2 =>
        rw [Option.some_bind, Option.some_bind]
        cases cornerUpdate pos ns prep eps f 2 av2 with
        | none => rfl
        | some av3 =>
          rw [Option.some_bind, Option.some_bind]
          exact ih l2 av3

theorem cornerUpdate_writes {pos ns : List Vec3} {prep : List SGEntry} {eps : ℝ}
    {f : ASE.Face} {c : Fin 3} {av av' : List Vec3}
    (h : cornerUpdate pos ns prep eps f c av = some av') :
    ∃ p v, pos[f.mIndices c]? = some p ∧
      sumNormalsAux ns Vec3.zero (FindPositions prep p f.iSmoothGroup eps) = some v ∧
      av'[f.mIndices c]? = some v.Normalize := by
  simp only [cornerUpdate, Option.bind_eq_some] at h
  obtain ⟨p, hp, v, hv, hset⟩ := h
  obtain ⟨hlt, rfl⟩ := setOpt_eq_some hset
  exact ⟨p, v, hp, hv, List.getElem?_set_self hlt⟩

theorem cornerSmoothedNormal_eval {m : ASE.Mesh} {f : ASE.Face} {c : Fin 3}
    {ns1 : List Vec3} {es : List SGEntry} {p v : Vec3}
    (hns1 : scatterFlat m.mPositions m.mFaces
      (listResize m.mNormals m.mPositions.length Vec3.zero) = some ns1)
    (hes : buildEntries m.mPositions m.mFaces = some es)
    (hp : m.mPositions[f.mIndices c]? = some p)
    (hv : sumNormalsAux ns1 Vec3.zero
      (FindPositions (Prepare es) p f.iSmoothGroup (posEpsilonOf m.mPositions))
      = some v) :
    cornerSmoothedNormal m f c = some v.Normalize := by
  rw [cornerSmoothedNormal, hns1, Option.some_bind, hes, Option.some_bind, hp,
    Option.some_bind, ← sumOverQuery_eq, hv, Option.some_bind]

/-- C2 (amended): the output normal of a face corner that is the last
writer of its position slot (no later face, and no later corner of its own
face, references the slot) is exactly the normalization of the sum of the
scratch flat normals of the index entries matching that corner's own query:
entries within the welding epsilon of the corner's position whose mask
shares at least one bit with the face's mask. Corners with equal positions
and equal masks therefore receive identical normals; corners that are
merely within epsilon of each other with merely overlapping masks can have
different match sets and hence different normals. -/
theorem C2_amended_corner_query_formula (m mr : ASE.Mesh)
    (pre post : List ASE.Face) (f : ASE.Face) (c : Fin 3)
    (hsplit : m.mFaces = pre ++ f :: post)
    (hrun : ComputeNormalsWithSmoothingsGroups m = some mr)
    (hlastf : ∀ g ∈ post, ∀ c' : Fin 3, g.mIndices c' ≠ f.mIndices c)
    (hlastc : ∀ c' : Fin 3, c < c' → f.mIndices c' ≠ f.mIndices c) :
    mr.mNormals[f.mIndices c]? = cornerSmoothedNormal m f c := by
  simp only [ComputeNormalsWithSmoothingsGroups, Option.bind_eq_some] at hrun
  obtain ⟨ns1, hns1, es, hes, av, hav, hmr⟩ := hrun
  rw [Option.some.injEq] at hmr
  rw [← hmr]
  show av[f.mIndices c]? = _
  rw [hsplit, smoothLoop_append, Option.bind_eq_some] at hav
  obtain ⟨av0, -, hav⟩ := hav
  simp only [smoothLoop, Option.bind_eq_some] at hav
  obtain ⟨av1, h1, av2, h2, av3, h3, hpost⟩ := hav
  rw [smoothLoop_not_ref hpost hlastf]
  fin_cases c
  · obtain ⟨p, v, hp, hv, hslot⟩ := cornerUpdate_writes h1
    have e3 := cornerUpdate_preserves h3 (hlastc 2 (by decide))
    have e2 := cornerUpdate_preserves h2 (hlastc 1 (by decide))
    exact e3.trans (e2.trans
      (hslot.trans (cornerSmoothedNormal_eval hns1 hes hp hv).symm))
  · obtain ⟨p, v, hp, hv, hslot⟩ := cornerUpdate_writes h2
    have e3 := cornerUpdate_preserves h3 (hlastc 2 (by decide))
    exact e3.trans
      (hslot.trans (cornerSmoothedNormal_eval hns1 hes hp hv).symm)
  · obtain ⟨p, v, hp, hv, hslot⟩ := cornerUpdate_writes h3
    exact hslot.trans (cornerSmoothedNormal_eval hns1 hes hp hv).symm

/-! Evaluation helpers for concrete queries. -/

theorem Vec3.add_zero_left (v : Vec3) : Vec3.add Vec3.zero v = v := by
  simp [Vec3.add, Vec3.zero]

theorem matches_of_same_pos {P : Vec3} {M : ℕ} {eps : ℝ} {e : SGEntry}
    (hpos : e.mPosition = P) (heps : 0 ≤ eps)
    (hm : e.mSmoothGroups &&& M ≠ 0) : matchesQuery P M eps e := by
  refine ⟨?_, hm⟩
  rw [hpos]
  have hz : (Vec3.sub P P).lengthSq = 0 := by
    simp [Vec3.sub, Vec3.lengthSq, Vec3.dot]
  rw [Vec3.length, hz, Real.sqrt_zero]
  exact heps

theorem not_matches_far {P : Vec3} {M : ℕ} {eps : ℝ} {e : SGEntry}
    (h1 : 1 ≤ (Vec3.sub e.mPosition P).lengthSq) (heps : eps < 1) :
    ¬ matchesQuery P M eps e := by
  intro hc
  have hge : (1 : ℝ) ≤ (Vec3.sub e.mPosition P).length := by
    rw [Vec3.length]
    calc (1 : ℝ) = Real.sqrt 1 := Real.sqrt_one.symm
      _ ≤ _ := Real.sqrt_le_sqrt h1
  linarith [hc.1]

theorem not_matches_mask {P : Vec3} {M : ℕ} {eps : ℝ} {e : SGEntry}
    (hm : e.mSmoothGroups &&& M = 0) : ¬ matchesQuery P M eps e :=
  fun hc => hc.2 hm

theorem cornerUpdate_eval_step {pos ns : List Vec3} {L : List SGEntry} {eps : ℝ}
    {f : ASE.Face} {c : Fin 3} {av : List Vec3} {P v w : Vec3} {idxs : List ℕ}
    (hp : pos[f.mIndices c]? = some P)
    (hfil : (L.filter fun e => decide (matchesQuery P f.iSmoothGroup eps e)).map
      SGEntry.mIndex = idxs)
    (hsum : sumNormalsAux ns Vec3.zero idxs = some v)
    (hnorm : v.Normalize = w)
    (hlt : f.mIndices c < av.length) :
    cornerUpdate pos ns (Prepare L) eps f c av
      = some (av.set (f.mIndices c) w) := by
  rw [cornerUpdate, hp, Option.some_bind, sumOverQuery_eq, hfil, hsum,
    Option.some_bind, hnorm, setOpt_of_lt _ hlt]

theorem smoothLoop_cons_step {pos ns : List Vec3} {prep : List SGEntry} {eps : ℝ}
    {f : ASE.Face} {rest : List ASE.Face} {av a1 a2 a3 r : List Vec3}
    (h0 : cornerUpdate pos ns prep eps f 0 av = some a1)
    (h1 : cornerUpdate pos ns prep eps f 1 a1 = some a2)
    (h2 : cornerUpdate pos ns prep eps f 2 a2 = some a3)
    (hrest : smoothLoop pos ns prep eps rest a3 = some r) :
    smoothLoop pos ns prep eps (f :: rest) av = some r := by
  rw [smoothLoop, h0, Option.some_bind, h1, Option.some_bind, h2,
    Option.some_bind, hrest]

/-! The welding epsilon of TRICHAIN. -/

theorem TRICHAIN_minVec : minVecOf TRICHAIN.mPositions = ⟨0, 0, 0⟩ := by
  simp only [TRICHAIN, minVecOf, List.foldl_cons, List.foldl_nil]
  norm_num [min_def]

theorem TRICHAIN_maxVec : maxVecOf TRICHAIN.mPositions = ⟨3, 4, 0⟩ := by
  simp only [TRICHAIN, maxVecOf, List.foldl_cons, List.foldl_nil]
  norm_num [max_def]

theorem TRICHAIN_eps : posEpsilonOf TRICHAIN.mPositions = 5e-5 := by
  rw [posEpsilonOf, TRICHAIN_minVec, TRICHAIN_maxVec]
  have hsq : (Vec3.sub ⟨3, 4, 0⟩ ⟨0, 0, 0⟩).lengthSq = 5 ^ 2 := by
    norm_num [Vec3.sub, Vec3.lengthSq, Vec3.dot]
  rw [Vec3.length, hsq, Real.sqrt_sq (by norm_num)]
  norm_num

/-! Query evaluations on TRICHAIN's entries at epsilon 5e-5. -/

theorem dec_pos_eq (P : Vec3) (M : ℕ) (e : SGEntry) (hpos : e.mPosition = P)
    (hm : e.mSmoothGroups &&& M ≠ 0) :
    decide (matchesQuery P M (5e-5 : ℝ) e) = true :=
  decide_eq_true (matches_of_same_pos hpos (by norm_num) hm)

theorem dec_far_ne (P : Vec3) (M : ℕ) (e : SGEntry)
    (h1 : 1 ≤ (Vec3.sub e.mPosition P).lengthSq) :
    ¬ decide (matchesQuery P M (5e-5 : ℝ) e) = true := by
  rw [decide_eq_true_eq]
  exact not_matches_far h1 (by norm_num)

theorem dec_mask_ne (P : Vec3) (M : ℕ) (e : SGEntry)
    (hm : e.mSmoothGroups &&& M = 0) :
    ¬ decide (matchesQuery P M (5e-5 : ℝ) e) = true := by
  rw [decide_eq_true_eq]
  exact not_matches_mask hm

theorem filA0 : (TRICHAIN_entries.filter fun e =>
    decide (matchesQuery ⟨0, 0, 0⟩ 1 (5e-5 : ℝ) e)).map SGEntry.mIndex = [0, 3] := by
  simp only [TRICHAIN_entries]
  rw [List.filter_cons_of_pos (p := fun e => decide (matchesQuery ⟨0, 0, 0⟩ 1 (5e-5 : ℝ) e)) (dec_pos_eq ⟨0, 0, 0⟩ 1 ⟨⟨0, 0, 0⟩, 0, 1⟩ rfl (by decide)),
    List.filter_cons_of_neg (p := fun e => decide (matchesQuery ⟨0, 0, 0⟩ 1 (5e-5 : ℝ) e)) (dec_far_ne ⟨0, 0, 0⟩ 1 ⟨⟨1, 0, 0⟩, 1, 1⟩ (by norm_num [Vec3.sub, Vec3.lengthSq, Vec3.dot])),
    List.filter_cons_of_neg (p := fun e => decide (matchesQuery ⟨0, 0, 0⟩ 1 (5e-5 : ℝ) e)) (dec_far_ne ⟨0, 0, 0⟩ 1 ⟨⟨0, 1, 0⟩, 2, 1⟩ (by norm_num [Vec3.sub, Vec3.lengthSq, Vec3.dot])),
    List.filter_cons_of_pos (p := fun e => decide (matchesQuery ⟨0, 0, 0⟩ 1 (5e-5 : ℝ) e)) (dec_pos_eq ⟨0, 0, 0⟩ 1 ⟨⟨0, 0, 0⟩, 3, 3⟩ rfl (by decide)),
    List.filter_cons_of_neg (p := fun e => decide (matchesQuery ⟨0, 0, 0⟩ 1 (5e-5 : ℝ) e)) (dec_far_ne ⟨0, 0, 0⟩ 1 ⟨⟨2, 0, 0⟩, 4, 3⟩ (by norm_num [Vec3.sub, Vec3.lengthSq, Vec3.dot])),
    List.filter_cons_of_neg (p := fun e => decide (matchesQuery ⟨0, 0, 0⟩ 1 (5e-5 : ℝ) e)) (dec_far_ne ⟨0, 0, 0⟩ 1 ⟨⟨0, 2, 0⟩, 5, 3⟩ (by norm_num [Vec3.sub, Vec3.lengthSq, Vec3.dot])),
    List.filter_cons_of_neg (p := fun e => decide (matchesQuery ⟨0, 0, 0⟩ 1 (5e-5 : ℝ) e)) (dec_mask_ne ⟨0, 0, 0⟩ 1 ⟨⟨0, 0, 0⟩, 6, 2⟩ (by decide)),
    List.filter_cons_of_neg (p := fun e => decide (matchesQuery ⟨0, 0, 0⟩ 1 (5e-5 : ℝ) e)) (dec_far_ne ⟨0, 0, 0⟩ 1 ⟨⟨0, 4, 0⟩, 7, 2⟩ (by norm_num [Vec3.sub, Vec3.lengthSq, Vec3.dot])),
    List.filter_cons_of_neg (p := fun e => decide (matchesQuery ⟨0, 0, 0⟩ 1 (5e-5 : ℝ) e)) (dec_far_ne ⟨0, 0, 0⟩ 1 ⟨⟨3, 0, 0⟩, 8, 2⟩ (by norm_num [Vec3.sub, Vec3.lengthSq, Vec3.dot]))]
  rfl

theorem filA1 : (TRICHAIN_entries.filter fun e =>
    decide (matchesQuery ⟨1, 0, 0⟩ 1 (5e-5 : ℝ) e)).map SGEntry.mIndex = [1] := by
  simp only [TRICHAIN_entries]
  rw [List.filter_cons_of_neg (p := fun e => decide (matchesQuery ⟨1, 0, 0⟩ 1 (5e-5 : ℝ) e)) (dec_far_ne ⟨1, 0, 0⟩ 1 ⟨⟨0, 0, 0⟩, 0, 1⟩ (by norm_num [Vec3.sub, Vec3.lengthSq, Vec3.dot])),
    List.filter_cons_of_pos (p := fun e => decide (matchesQuery ⟨1, 0, 0⟩ 1 (5e-5 : ℝ) e)) (dec_pos_eq ⟨1, 0, 0⟩ 1 ⟨⟨1, 0, 0⟩, 1, 1⟩ rfl (by decide)),
    List.filter_cons_of_neg (p := fun e => decide (matchesQuery ⟨1, 0, 0⟩ 1 (5e-5 : ℝ) e)) (dec_far_ne ⟨1, 0, 0⟩ 1 ⟨⟨0, 1, 0⟩, 2, 1⟩ (by norm_num [Vec3.sub, Vec3.lengthSq, Vec3.dot])),
    List.filter_cons_of_neg (p := fun e => decide (matchesQuery ⟨1, 0, 0⟩ 1 (5e-5 : ℝ) e)) (dec_far_ne ⟨1, 0, 0⟩ 1 ⟨⟨0, 0, 0⟩, 3, 3⟩ (by norm_num [Vec3.sub, Vec3.lengthSq, Vec3.dot])),
    List.filter_cons_of_neg (p := fun e => decide (matchesQuery ⟨1, 0, 0⟩ 1 (5e-5 : ℝ) e)) (dec_far_ne ⟨1, 0, 0⟩ 1 ⟨⟨2, 0, 0⟩, 4, 3⟩ (by norm_num [Vec3.sub, Vec3.lengthSq, Vec3.dot])),
    List.filter_cons_of_neg (p := fun e => decide (matchesQuery ⟨1, 0, 0⟩ 1 (5e-5 : ℝ) e)) (dec_far_ne ⟨1, 0, 0⟩ 1 ⟨⟨0, 2, 0⟩, 5, 3⟩ (by norm_num [Vec3.sub, Vec3.lengthSq, Vec3.dot])),
    List.filter_cons_of_neg (p := fun e => decide (matchesQuery ⟨1, 0, 0⟩ 1 (5e-5 : ℝ) e)) (dec_far_ne ⟨1, 0, 0⟩ 1 ⟨⟨0, 0, 0⟩, 6, 2⟩ (by norm_num [Vec3.sub, Vec3.lengthSq, Vec3.dot])),
    List.filter_cons_of_neg (p := fun e => decide (matchesQuery ⟨1, 0, 0⟩ 1 (5e-5 : ℝ) e)) (dec_far_ne ⟨1, 0, 0⟩ 1 ⟨⟨0, 4, 0⟩, 7, 2⟩ (by norm_num [Vec3.sub, Vec3.lengthSq, Vec3.dot])),
    List.filter_cons_of_neg (p := fun e => decide (matchesQuery ⟨1, 0, 0⟩ 1 (5e-5 : ℝ) e)) (dec_far_ne ⟨1, 0, 0⟩ 1 ⟨⟨3, 0, 0⟩, 8, 2⟩ (by norm_num [Vec3.sub, Vec3.lengthSq, Vec3.dot]))]
  rfl

theorem filA2 : (TRICHAIN_entries.filter fun e =>
    decide (matchesQuery ⟨0, 1, 0⟩ 1 (5e-5 : ℝ) e)).map SGEntry.mIndex = [2] := by
  simp only [TRICHAIN_entries]
  rw [List.filter_cons_of_neg (p := fun e => decide (matchesQuery ⟨0, 1, 0⟩ 1 (5e-5 : ℝ) e)) (dec_far_ne ⟨0, 1, 0⟩ 1 ⟨⟨0, 0, 0⟩, 0, 1⟩ (by norm_num [Vec3.sub, Vec3.lengthSq, Vec3.dot])),
    List.filter_cons_of_neg (p := fun e => decide (matchesQuery ⟨0, 1, 0⟩ 1 (5e-5 : ℝ) e)) (dec_far_ne ⟨0, 1, 0⟩ 1 ⟨⟨1, 0, 0⟩, 1, 1⟩ (by norm_num [Vec3.sub, Vec3.lengthSq, Vec3.dot])),
    List.filter_cons_of_pos (p := fun e => decide (matchesQuery ⟨0, 1, 0⟩ 1 (5e-5 : ℝ) e)) (dec_pos_eq ⟨0, 1, 0⟩ 1 ⟨⟨0, 1, 0⟩, 2, 1⟩ rfl (by decide)),
    List.filter_cons_of_neg (p := fun e => decide (matchesQuery ⟨0, 1, 0⟩ 1 (5e-5 : ℝ) e)) (dec_far_ne ⟨0, 1, 0⟩ 1 ⟨⟨0, 0, 0⟩, 3, 3⟩ (by norm_num [Vec3.sub, Vec3.lengthSq, Vec3.dot])),
    List.filter_cons_of_neg (p := fun e => decide (matchesQuery ⟨0, 1, 0⟩ 1 (5e-5 : ℝ) e)) (dec_far_ne ⟨0, 1, 0⟩ 1 ⟨⟨2, 0, 0⟩, 4, 3⟩ (by norm_num [Vec3.sub, Vec3.lengthSq, Vec3.dot])),
    List.filter_cons_of_neg (p := fun e => decide (matchesQuery ⟨0, 1, 0⟩ 1 (5e-5 : ℝ) e)) (dec_far_ne ⟨0, 1, 0⟩ 1 ⟨⟨0, 2, 0⟩, 5, 3⟩ (by norm_num [Vec3.sub, Vec3.lengthSq, Vec3.dot])),
    List.filter_cons_of_neg (p := fun e => decide (matchesQuery ⟨0, 1, 0⟩ 1 (5e-5 : ℝ) e)) (dec_far_ne ⟨0, 1, 0⟩ 1 ⟨⟨0, 0, 0⟩, 6, 2⟩ (by norm_num [Vec3.sub, Vec3.lengthSq, Vec3.dot])),
    List.filter_cons_of_neg (p := fun e => decide (matchesQuery ⟨0, 1, 0⟩ 1 (5e-5 : ℝ) e)) (dec_far_ne ⟨0, 1, 0⟩ 1 ⟨⟨0, 4, 0⟩, 7, 2⟩ (by norm_num [Vec3.sub, Vec3.lengthSq, Vec3.dot])),
    List.filter_cons_of_neg (p := fun e => decide (matchesQuery ⟨0, 1, 0⟩ 1 (5e-5 : ℝ) e)) (dec_far_ne ⟨0, 1, 0⟩ 1 ⟨⟨3, 0, 0⟩, 8, 2⟩ (by norm_num [Vec3.sub, Vec3.lengthSq, Vec3.dot]))]
  rfl

theorem filB0 : (TRICHAIN_entries.filter fun e =>
    decide (matchesQuery ⟨0, 0, 0⟩ 3 (5e-5 : ℝ) e)).map SGEntry.mIndex = [0, 3, 6] := by
  simp only [TRICHAIN_entries]
  rw [List.filter_cons_of_pos (p := fun e => decide (matchesQuery ⟨0, 0, 0⟩ 3 (5e-5 : ℝ) e)) (dec_pos_eq ⟨0, 0, 0⟩ 3 ⟨⟨0, 0, 0⟩, 0, 1⟩ rfl (by decide)),
    List.filter_cons_of_neg (p := fun e => decide (matchesQuery ⟨0, 0, 0⟩ 3 (5e-5 : ℝ) e)) (dec_far_ne ⟨0, 0, 0⟩ 3 ⟨⟨1, 0, 0⟩, 1, 1⟩ (by norm_num [Vec3.sub, Vec3.lengthSq, Vec3.dot])),
    List.filter_cons_of_neg (p := fun e => decide (matchesQuery ⟨0, 0, 0⟩ 3 (5e-5 : ℝ) e)) (dec_far_ne ⟨0, 0, 0⟩ 3 ⟨⟨0, 1, 0⟩, 2, 1⟩ (by norm_num [Vec3.sub, Vec3.lengthSq, Vec3.dot])),
    List.filter_cons_of_pos (p := fun e => decide (matchesQuery ⟨0, 0, 0⟩ 3 (5e-5 : ℝ) e)) (dec_pos_eq ⟨0, 0, 0⟩ 3 ⟨⟨0, 0, 0⟩, 3, 3⟩ rfl (by decide)),
    List.filter_cons_of_neg (p := fun e => decide (matchesQuery ⟨0, 0, 0⟩ 3 (5e-5 : ℝ) e)) (dec_far_ne ⟨0, 0, 0⟩ 3 ⟨⟨2, 0, 0⟩, 4, 3⟩ (by norm_num [Vec3.sub, Vec3.lengthSq, Vec3.dot])),
    List.filter_cons_of_neg (p := fun e => decide (matchesQuery ⟨0, 0, 0⟩ 3 (5e-5 : ℝ) e)) (dec_far_ne ⟨0, 0, 0⟩ 3 ⟨⟨0, 2, 0⟩, 5, 3⟩ (by norm_num [Vec3.sub, Vec3.lengthSq, Vec3.dot])),
    List.filter_cons_of_pos (p := fun e => decide (matchesQuery ⟨0, 0, 0⟩ 3 (5e-5 : ℝ) e)) (dec_pos_eq ⟨0, 0, 0⟩ 3 ⟨⟨0, 0, 0⟩, 6, 2⟩ rfl (by decide)),
    List.filter_cons_of_neg (p := fun e => decide (matchesQuery ⟨0, 0, 0⟩ 3 (5e-5 : ℝ) e)) (dec_far_ne ⟨0, 0, 0⟩ 3 ⟨⟨0, 4, 0⟩, 7, 2⟩ (by norm_num [Vec3.sub, Vec3.lengthSq, Vec3.dot])),
    List.filter_cons_of_neg (p := fun e => decide (matchesQuery ⟨0, 0, 0⟩ 3 (5e-5 : ℝ) e)) (dec_far_ne ⟨0, 0, 0⟩ 3 ⟨⟨3, 0, 0⟩, 8, 2⟩ (by norm_num [Vec3.sub, Vec3.lengthSq, Vec3.dot]))]
  rfl

theorem filB1 : (TRICHAIN_entries.filter fun e =>
    decide (matchesQuery ⟨2, 0, 0⟩ 3 (5e-5 : ℝ) e)).map SGEntry.mIndex = [4] := by
  simp only [TRICHAIN_entries]
  rw [List.filter_cons_of_neg (p := fun e => decide (matchesQuery ⟨2, 0, 0⟩ 3 (5e-5 : ℝ) e)) (dec_far_ne ⟨2, 0, 0⟩ 3 ⟨⟨0, 0, 0⟩, 0, 1⟩ (by norm_num [Vec3.sub, Vec3.lengthSq, Vec3.dot])),
    List.filter_cons_of_neg (p := fun e => decide (matchesQuery ⟨2, 0, 0⟩ 3 (5e-5 : ℝ) e)) (dec_far_ne ⟨2, 0, 0⟩ 3 ⟨⟨1, 0, 0⟩, 1, 1⟩ (by norm_num [Vec3.sub, Vec3.lengthSq, Vec3.dot])),
    List.filter_cons_of_neg (p := fun e => decide (matchesQuery ⟨2, 0, 0⟩ 3 (5e-5 : ℝ) e)) (dec_far_ne ⟨2, 0, 0⟩ 3 ⟨⟨0, 1, 0⟩, 2, 1⟩ (by norm_num [Vec3.sub, Vec3.lengthSq, Vec3.dot])),
    List.filter_cons_of_neg (p := fun e => decide (matchesQuery ⟨2, 0, 0⟩ 3 (5e-5 : ℝ) e)) (dec_far_ne ⟨2, 0, 0⟩ 3 ⟨⟨0, 0, 0⟩, 3, 3⟩ (by norm_num [Vec3.sub, Vec3.lengthSq, Vec3.dot])),
    List.filter_cons_of_pos (p := fun e => decide (matchesQuery ⟨2, 0, 0⟩ 3 (5e-5 : ℝ) e)) (dec_pos_eq ⟨2, 0, 0⟩ 3 ⟨⟨2, 0, 0⟩, 4, 3⟩ rfl (by decide)),
    List.filter_cons_of_neg (p := fun e => decide (matchesQuery ⟨2, 0, 0⟩ 3 (5e-5 : ℝ) e)) (dec_far_ne ⟨2, 0, 0⟩ 3 ⟨⟨0, 2, 0⟩, 5, 3⟩ (by norm_num [Vec3.sub, Vec3.lengthSq, Vec3.dot])),
    List.filter_cons_of_neg (p := fun e => decide (matchesQuery ⟨2, 0, 0⟩ 3 (5e-5 : ℝ) e)) (dec_far_ne ⟨2, 0, 0⟩ 3 ⟨⟨0, 0, 0⟩, 6, 2⟩ (by norm_num [Vec3.sub, Vec3.lengthSq, Vec3.dot])),
    List.filter_cons_of_neg (p := fun e => decide (matchesQuery ⟨2, 0, 0⟩ 3 (5e-5 : ℝ) e)) (dec_far_ne ⟨2, 0, 0⟩ 3 ⟨⟨0, 4, 0⟩, 7, 2⟩ (by norm_num [Vec3.sub, Vec3.lengthSq, Vec3.dot])),
    List.filter_cons_of_neg (p := fun e => decide (matchesQuery ⟨2, 0, 0⟩ 3 (5e-5 : ℝ) e)) (dec_far_ne ⟨2, 0, 0⟩ 3 ⟨⟨3, 0, 0⟩, 8, 2⟩ (by norm_num [Vec3.sub, Vec3.lengthSq, Vec3.dot]))]
  rfl

theorem filB2 : (TRICHAIN_entries.filter fun e =>
    decide (matchesQuery ⟨0, 2, 0⟩ 3 (5e-5 : ℝ) e)).map SGEntry.mIndex = [5] := by
  simp only [TRICHAIN_entries]
  rw [List.filter_cons_of_neg (p := fun e => decide (matchesQuery ⟨0, 2, 0⟩ 3 (5e-5 : ℝ) e)) (dec_far_ne ⟨0, 2, 0⟩ 3 ⟨⟨0, 0, 0⟩, 0, 1⟩ (by norm_num [Vec3.sub, Vec3.lengthSq, Vec3.dot])),
    List.filter_cons_of_neg (p := fun e => decide (matchesQuery ⟨0, 2, 0⟩ 3 (5e-5 : ℝ) e)) (dec_far_ne ⟨0, 2, 0⟩ 3 ⟨⟨1, 0, 0⟩, 1, 1⟩ (by norm_num [Vec3.sub, Vec3.lengthSq, Vec3.dot])),
    List.filter_cons_of_neg (p := fun e => decide (matchesQuery ⟨0, 2, 0⟩ 3 (5e-5 : ℝ) e)) (dec_far_ne ⟨0, 2, 0⟩ 3 ⟨⟨0, 1, 0⟩, 2, 1⟩ (by norm_num [Vec3.sub, Vec3.lengthSq, Vec3.dot])),
    List.filter_cons_of_neg (p := fun e => decide (matchesQuery ⟨0, 2, 0⟩ 3 (5e-5 : ℝ) e)) (dec_far_ne ⟨0, 2, 0⟩ 3 ⟨⟨0, 0, 0⟩, 3, 3⟩ (by norm_num [Vec3.sub, Vec3.lengthSq, Vec3.dot])),
    List.filter_cons_of_neg (p := fun e => decide (matchesQuery ⟨0, 2, 0⟩ 3 (5e-5 : ℝ) e)) (dec_far_ne ⟨0, 2, 0⟩ 3 ⟨⟨2, 0, 0⟩, 4, 3⟩ (by norm_num [Vec3.sub, Vec3.lengthSq, Vec3.dot])),
    List.filter_cons_of_pos (p := fun e => decide (matchesQuery ⟨0, 2, 0⟩ 3 (5e-5 : ℝ) e)) (dec_pos_eq ⟨0, 2, 0⟩ 3 ⟨⟨0, 2, 0⟩, 5, 3⟩ rfl (by decide)),
    List.filter_cons_of_neg (p := fun e => decide (matchesQuery ⟨0, 2, 0⟩ 3 (5e-5 : ℝ) e)) (dec_far_ne ⟨0, 2, 0⟩ 3 ⟨⟨0, 0, 0⟩, 6, 2⟩ (by norm_num [Vec3.sub, Vec3.lengthSq, Vec3.dot])),
    List.filter_cons_of_neg (p := fun e => decide (matchesQuery ⟨0, 2, 0⟩ 3 (5e-5 : ℝ) e)) (dec_far_ne ⟨0, 2, 0⟩ 3 ⟨⟨0, 4, 0⟩, 7, 2⟩ (by norm_num [Vec3.sub, Vec3.lengthSq, Vec3.dot])),
    List.filter_cons_of_neg (p := fun e => decide (matchesQuery ⟨0, 2, 0⟩ 3 (5e-5 : ℝ) e)) (dec_far_ne ⟨0, 2, 0⟩ 3 ⟨⟨3, 0, 0⟩, 8, 2⟩ (by norm_num [Vec3.sub, Vec3.lengthSq, Vec3.dot]))]
  rfl

theorem filC0 : (TRICHAIN_entries.filter fun e =>
    decide (matchesQuery ⟨0, 0, 0⟩ 2 (5e-5 : ℝ) e)).map SGEntry.mIndex = [3, 6] := by
  simp only [TRICHAIN_entries]
  rw [List.filter_cons_of_neg (p := fun e => decide (matchesQuery ⟨0, 0, 0⟩ 2 (5e-5 : ℝ) e)) (dec_mask_ne ⟨0, 0, 0⟩ 2 ⟨⟨0, 0, 0⟩, 0, 1⟩ (by decide)),
    List.filter_cons_of_neg (p := fun e => decide (matchesQuery ⟨0, 0, 0⟩ 2 (5e-5 : ℝ) e)) (dec_far_ne ⟨0, 0, 0⟩ 2 ⟨⟨1, 0, 0⟩, 1, 1⟩ (by norm_num [Vec3.sub, Vec3.lengthSq, Vec3.dot])),
    List.filter_cons_of_neg (p := fun e => decide (matchesQuery ⟨0, 0, 0⟩ 2 (5e-5 : ℝ) e)) (dec_far_ne ⟨0, 0, 0⟩ 2 ⟨⟨0, 1, 0⟩, 2, 1⟩ (by norm_num [Vec3.sub, Vec3.lengthSq, Vec3.dot])),
    List.filter_cons_of_pos (p := fun e => decide (matchesQuery ⟨0, 0, 0⟩ 2 (5e-5 : ℝ) e)) (dec_pos_eq ⟨0, 0, 0⟩ 2 ⟨⟨0, 0, 0⟩, 3, 3⟩ rfl (by decide)),
    List.filter_cons_of_neg (p := fun e => decide (matchesQuery ⟨0, 0, 0⟩ 2 (5e-5 : ℝ) e)) (dec_far_ne ⟨0, 0, 0⟩ 2 ⟨⟨2, 0, 0⟩, 4, 3⟩ (by norm_num [Vec3.sub, Vec3.lengthSq, Vec3.dot])),
    List.filter_cons_of_neg (p := fun e => decide (matchesQuery ⟨0, 0, 0⟩ 2 (5e-5 : ℝ) e)) (dec_far_ne ⟨0, 0, 0⟩ 2 ⟨⟨0, 2, 0⟩, 5, 3⟩ (by norm_num [Vec3.sub, Vec3.lengthSq, Vec3.dot])),
    List.filter_cons_of_pos (p := fun e => decide (matchesQuery ⟨0, 0, 0⟩ 2 (5e-5 : ℝ) e)) (dec_pos_eq ⟨0, 0, 0⟩ 2 ⟨⟨0, 0, 0⟩, 6, 2⟩ rfl (by decide)),
    List.filter_cons_of_neg (p := fun e => decide (matchesQuery ⟨0, 0, 0⟩ 2 (5e-5 : ℝ) e)) (dec_far_ne ⟨0, 0, 0⟩ 2 ⟨⟨0, 4, 0⟩, 7, 2⟩ (by norm_num [Vec3.sub, Vec3.lengthSq, Vec3.dot])),
    List.filter_cons_of_neg (p := fun e => decide (matchesQuery ⟨0, 0, 0⟩ 2 (5e-5 : ℝ) e)) (dec_far_ne ⟨0, 0, 0⟩ 2 ⟨⟨3, 0, 0⟩, 8, 2⟩ (by norm_num [Vec3.sub, Vec3.lengthSq, Vec3.dot]))]
  rfl

theorem filC1 : (TRICHAIN_entries.filter fun e =>
    decide (matchesQuery ⟨0, 4, 0⟩ 2 (5e-5 : ℝ) e)).map SGEntry.mIndex = [7] := by
  simp only [TRICHAIN_entries]
  rw [List.filter_cons_of_neg (p := fun e => decide (matchesQuery ⟨0, 4, 0⟩ 2 (5e-5 : ℝ) e)) (dec_far_ne ⟨0, 4, 0⟩ 2 ⟨⟨0, 0, 0⟩, 0, 1⟩ (by norm_num [Vec3.sub, Vec3.lengthSq, Vec3.dot])),
    List.filter_cons_of_neg (p := fun e => decide (matchesQuery ⟨0, 4, 0⟩ 2 (5e-5 : ℝ) e)) (dec_far_ne ⟨0, 4, 0⟩ 2 ⟨⟨1, 0, 0⟩, 1, 1⟩ (by norm_num [Vec3.sub, Vec3.lengthSq, Vec3.dot])),
    List.filter_cons_of_neg (p := fun e => decide (matchesQuery ⟨0, 4, 0⟩ 2 (5e-5 : ℝ) e)) (dec_far_ne ⟨0, 4, 0⟩ 2 ⟨⟨0, 1, 0⟩, 2, 1⟩ (by norm_num [Vec3.sub, Vec3.lengthSq, Vec3.dot])),
    List.filter_cons_of_neg (p := fun e => decide (matchesQuery ⟨0, 4, 0⟩ 2 (5e-5 : ℝ) e)) (dec_far_ne ⟨0, 4, 0⟩ 2 ⟨⟨0, 0, 0⟩, 3, 3⟩ (by norm_num [Vec3.sub, Vec3.lengthSq, Vec3.dot])),
    List.filter_cons_of_neg (p := fun e => decide (matchesQuery ⟨0, 4, 0⟩ 2 (5e-5 : ℝ) e)) (dec_far_ne ⟨0, 4, 0⟩ 2 ⟨⟨2, 0, 0⟩, 4, 3⟩ (by norm_num [Vec3.sub, Vec3.lengthSq, Vec3.dot])),
    List.filter_cons_of_neg (p := fun e => decide (matchesQuery ⟨0, 4, 0⟩ 2 (5e-5 : ℝ) e)) (dec_far_ne ⟨0, 4, 0⟩ 2 ⟨⟨0, 2, 0⟩, 5, 3⟩ (by norm_num [Vec3.sub, Vec3.lengthSq, Vec3.dot])),
    List.filter_cons_of_neg (p := fun e => decide (matchesQuery ⟨0, 4, 0⟩ 2 (5e-5 : ℝ) e)) (dec_far_ne ⟨0, 4, 0⟩ 2 ⟨⟨0, 0, 0⟩, 6, 2⟩ (by norm_num [Vec3.sub, Vec3.lengthSq, Vec3.dot])),
    List.filter_cons_of_pos (p := fun e => decide (matchesQuery ⟨0, 4, 0⟩ 2 (5e-5 : ℝ) e)) (dec_pos_eq ⟨0, 4, 0⟩ 2 ⟨⟨0, 4, 0⟩, 7, 2⟩ rfl (by decide)),
    List.filter_cons_of_neg (p := fun e => decide (matchesQuery ⟨0, 4, 0⟩ 2 (5e-5 : ℝ) e)) (dec_far_ne ⟨0, 4, 0⟩ 2 ⟨⟨3, 0, 0⟩, 8, 2⟩ (by norm_num [Vec3.sub, Vec3.lengthSq, Vec3.dot]))]
  rfl

theorem filC2 : (TRICHAIN_entries.filter fun e =>
    decide (matchesQuery ⟨3, 0, 0⟩ 2 (5e-5 : ℝ) e)).map SGEntry.mIndex = [8] := by
  simp only [TRICHAIN_entries]
  rw [List.filter_cons_of_neg (p := fun e => decide (matchesQuery ⟨3, 0, 0⟩ 2 (5e-5 : ℝ) e)) (dec_far_ne ⟨3, 0, 0⟩ 2 ⟨⟨0, 0, 0⟩, 0, 1⟩ (by norm_num [Vec3.sub, Vec3.lengthSq, Vec3.dot])),
    List.filter_cons_of_neg (p := fun e => decide (matchesQuery ⟨3, 0, 0⟩ 2 (5e-5 : ℝ) e)) (dec_far_ne ⟨3, 0, 0⟩ 2 ⟨⟨1, 0, 0⟩, 1, 1⟩ (by norm_num [Vec3.sub, Vec3.lengthSq, Vec3.dot])),
    List.filter_cons_of_neg (p := fun e => decide (matchesQuery ⟨3, 0, 0⟩ 2 (5e-5 : ℝ) e)) (dec_far_ne ⟨3, 0, 0⟩ 2 ⟨⟨0, 1, 0⟩, 2, 1⟩ (by norm_num [Vec3.sub, Vec3.lengthSq, Vec3.dot])),
    List.filter_cons_of_neg (p := fun e => decide (matchesQuery ⟨3, 0, 0⟩ 2 (5e-5 : ℝ) e)) (dec_far_ne ⟨3, 0, 0⟩ 2 ⟨⟨0, 0, 0⟩, 3, 3⟩ (by norm_num [Vec3.sub, Vec3.lengthSq, Vec3.dot])),
    List.filter_cons_of_neg (p := fun e => decide (matchesQuery ⟨3, 0, 0⟩ 2 (5e-5 : ℝ) e)) (dec_far_ne ⟨3, 0, 0⟩ 2 ⟨⟨2, 0, 0⟩, 4, 3⟩ (by norm_num [Vec3.sub, Vec3.lengthSq, Vec3.dot])),
    List.filter_cons_of_neg (p := fun e => decide (matchesQuery ⟨3, 0, 0⟩ 2 (5e-5 : ℝ) e)) (dec_far_ne ⟨3, 0, 0⟩ 2 ⟨⟨0, 2, 0⟩, 5, 3⟩ (by norm_num [Vec3.sub, Vec3.lengthSq, Vec3.dot])),
    List.filter_cons_of_neg (p := fun e => decide (matchesQuery ⟨3, 0, 0⟩ 2 (5e-5 : ℝ) e)) (dec_far_ne ⟨3, 0, 0⟩ 2 ⟨⟨0, 0, 0⟩, 6, 2⟩ (by norm_num [Vec3.sub, Vec3.lengthSq, Vec3.dot])),
    List.filter_cons_of_neg (p := fun e => decide (matchesQuery ⟨3, 0, 0⟩ 2 (5e-5 : ℝ) e)) (dec_far_ne ⟨3, 0, 0⟩ 2 ⟨⟨0, 4, 0⟩, 7, 2⟩ (by norm_num [Vec3.sub, Vec3.lengthSq, Vec3.dot])),
    List.filter_cons_of_pos (p := fun e => decide (matchesQuery ⟨3, 0, 0⟩ 2 (5e-5 : ℝ) e)) (dec_pos_eq ⟨3, 0, 0⟩ 2 ⟨⟨3, 0, 0⟩, 8, 2⟩ rfl (by decide))]
  rfl

/-! Full evaluation of the normal generator on TRICHAIN. -/

theorem eval_TRICHAIN :
    ComputeNormalsWithSmoothingsGroups TRICHAIN = some TRICHAINR := by
  have hva : Vec3.cross (Vec3.sub ⟨1, 0, 0⟩ ⟨0, 0, 0⟩) (Vec3.sub ⟨0, 1, 0⟩ ⟨0, 0, 0⟩)
      = (⟨0, 0, 1⟩ : Vec3) := by
    simp only [Vec3.cross, Vec3.sub, Vec3.mk.injEq]
    norm_num
  have hvb : Vec3.cross (Vec3.sub ⟨2, 0, 0⟩ ⟨0, 0, 0⟩) (Vec3.sub ⟨0, 2, 0⟩ ⟨0, 0, 0⟩)
      = (⟨0, 0, 4⟩ : Vec3) := by
    simp only [Vec3.cross, Vec3.sub, Vec3.mk.injEq]
    norm_num
  have hvc : Vec3.cross (Vec3.sub ⟨0, 4, 0⟩ ⟨0, 0, 0⟩) (Vec3.sub ⟨3, 0, 0⟩ ⟨0, 0, 0⟩)
      = (⟨0, 0, -12⟩ : Vec3) := by
    simp only [Vec3.cross, Vec3.sub, Vec3.mk.injEq]
    norm_num
  have hsc : scatterFlat TRICHAIN.mPositions TRICHAIN.mFaces
      (listResize TRICHAIN.mNormals TRICHAIN.mPositions.length Vec3.zero)
      = some TRICHAIN_scratch := by
    simp only [TRICHAIN_scratch]
    rw [← hva, ← hvb, ← hvc]
    rfl
  have hbe : buildEntries TRICHAIN.mPositions TRICHAIN.mFaces
      = some TRICHAIN_entries := rfl
  have sA0 : sumNormalsAux TRICHAIN_scratch Vec3.zero [0, 3] = some ⟨0, 0, 5⟩ := by
    show some (Vec3.add (Vec3.add Vec3.zero ⟨0, 0, 1⟩) ⟨0, 0, 4⟩) = some (⟨0, 0, 5⟩ : Vec3)
    norm_num [Vec3.add, Vec3.zero, Vec3.mk.injEq]
  have sA1 : sumNormalsAux TRICHAIN_scratch Vec3.zero [1] = some ⟨0, 0, 1⟩ := by
    show some (Vec3.add Vec3.zero ⟨0, 0, 1⟩) = some (⟨0, 0, 1⟩ : Vec3)
    norm_num [Vec3.add, Vec3.zero, Vec3.mk.injEq]
  have sA2 : sumNormalsAux TRICHAIN_scratch Vec3.zero [2] = some ⟨0, 0, 1⟩ := by
    show some (Vec3.add Vec3.zero ⟨0, 0, 1⟩) = some (⟨0, 0, 1⟩ : Vec3)
    norm_num [Vec3.add, Vec3.zero, Vec3.mk.injEq]
  have sB0 : sumNormalsAux TRICHAIN_scratch Vec3.zero [0, 3, 6] = some ⟨0, 0, -7⟩ := by
    show some (Vec3.add (Vec3.add (Vec3.add Vec3.zero ⟨0, 0, 1⟩) ⟨0, 0, 4⟩) ⟨0, 0, -12⟩)
      = some (⟨0, 0, -7⟩ : Vec3)
    norm_num [Vec3.add, Vec3.zero, Vec3.mk.injEq]
  have sB1 : sumNormalsAux TRICHAIN_scratch Vec3.zero [4] = some ⟨0, 0, 4⟩ := by
    show some (Vec3.add Vec3.zero ⟨0, 0, 4⟩) = some (⟨0, 0, 4⟩ : Vec3)
    norm_num [Vec3.add, Vec3.zero, Vec3.mk.injEq]
  have sB2 : sumNormalsAux TRICHAIN_scratch Vec3.zero [5] = some ⟨0, 0, 4⟩ := by
    show some (Vec3.add Vec3.zero ⟨0, 0, 4⟩) = some (⟨0, 0, 4⟩ : Vec3)
    norm_num [Vec3.add, Vec3.zero, Vec3.mk.injEq]
  have sC0 : sumNormalsAux TRICHAIN_scratch Vec3.zero [3, 6] = some ⟨0, 0, -8⟩ := by
    show some (Vec3.add (Vec3.add Vec3.zero ⟨0, 0, 4⟩) ⟨0, 0, -12⟩)
      = some (⟨0, 0, -8⟩ : Vec3)
    norm_num [Vec3.add, Vec3.zero, Vec3.mk.injEq]
  have sC1 : sumNormalsAux TRICHAIN_scratch Vec3.zero [7] = some ⟨0, 0, -12⟩ := by
    show some (Vec3.add Vec3.zero ⟨0, 0, -12⟩) = some (⟨0, 0, -12⟩ : Vec3)
    norm_num [Vec3.add, Vec3.zero, Vec3.mk.injEq]
  have sC2 : sumNormalsAux TRICHAIN_scratch Vec3.zero [8] = some ⟨0, 0, -12⟩ := by
    show some (Vec3.add Vec3.zero ⟨0, 0, -12⟩) = some (⟨0, 0, -12⟩ : Vec3)
    norm_num [Vec3.add, Vec3.zero, Vec3.mk.injEq]
  have n5 : (⟨0, 0, 5⟩ : Vec3).Normalize = ⟨0, 0, 1⟩ :=
    Vec3.Normalize_unitz_pos 5 (by norm_num)
  have n1 : (⟨0, 0, 1⟩ : Vec3).Normalize = ⟨0, 0, 1⟩ :=
    Vec3.Normalize_unitz_pos 1 (by norm_num)
  have n4 : (⟨0, 0, 4⟩ : Vec3).Normalize = ⟨0, 0, 1⟩ :=
    Vec3.Normalize_unitz_pos 4 (by norm_num)
  have n7 : (⟨0, 0, -7⟩ : Vec3).Normalize = ⟨0, 0, -1⟩ :=
    Vec3.Normalize_unitz_neg (-7) (by norm_num)
  have n8 : (⟨0, 0, -8⟩ : Vec3).Normalize = ⟨0, 0, -1⟩ :=
    Vec3.Normalize_unitz_neg (-8) (by norm_num)
  have n12 : (⟨0, 0, -12⟩ : Vec3).Normalize = ⟨0, 0, -1⟩ :=
    Vec3.Normalize_unitz_neg (-12) (by norm_num)
  have hsl : smoothLoop TRICHAIN.mPositions TRICHAIN_scratch
      (Prepare TRICHAIN_entries) (posEpsilonOf TRICHAIN.mPositions)
      TRICHAIN.mFaces (List.replicate TRICHAIN_scratch.length Vec3.zero)
      = some ((((((((((List.replicate TRICHAIN_scratch.length Vec3.zero).set
          0 ⟨0, 0, 1⟩).set 1 ⟨0, 0, 1⟩).set 2 ⟨0, 0, 1⟩).set 3 ⟨0, 0, -1⟩).set
          4 ⟨0, 0, 1⟩).set 5 ⟨0, 0, 1⟩).set 6 ⟨0, 0, -1⟩).set 7 ⟨0, 0, -1⟩).set
          8 ⟨0, 0, -1⟩) := by
    rw [show TRICHAIN.mFaces = [mkFace 0 1 2 1, mkFace 3 4 5 3, mkFace 6 7 8 2]
          from rfl,
        TRICHAIN_eps]
    exact smoothLoop_cons_step
      (cornerUpdate_eval_step rfl filA0 sA0 n5 (by decide))
      (cornerUpdate_eval_step rfl filA1 sA1 n1 (by decide))
      (cornerUpdate_eval_step rfl filA2 sA2 n1 (by decide))
      (smoothLoop_cons_step
        (cornerUpdate_eval_step rfl filB0 sB0 n7 (by decide))
        (cornerUpdate_eval_step rfl filB1 sB1 n4 (by decide))
        (cornerUpdate_eval_step rfl filB2 sB2 n4 (by decide))
        (smoothLoop_cons_step
          (cornerUpdate_eval_step rfl filC0 sC0 n8 (by decide))
          (cornerUpdate_eval_step rfl filC1 sC1 n12 (by decide))
          (cornerUpdate_eval_step rfl filC2 sC2 n12 (by decide))
          rfl))
  simp only [ComputeNormalsWithSmoothingsGroups]
  rw [hsc, Option.some_bind, hbe, Option.some_bind, hsl, Option.some_bind]
  rfl

/-- C2 (counterexample to the claim as stated): in TRICHAIN, corner 0 of
face A (mask 1, position slot 0) and corner 0 of face B (mask 3, position
slot 3) sit at the identical position (0,0,0) — distance 0, within the
welding epsilon — and their masks share bit 1, yet their output normals are
(0,0,1) and (0,0,-1): not identical. Face B's query also matches face C's
origin entry (masks 3 and 2 share bit 2) while face A's does not, so the two
corners sum different scratch normals. -/
theorem C2_shared_bit_identical_counterexample :
    ComputeNormalsWithSmoothingsGroups TRICHAIN = some TRICHAINR ∧
    TRICHAIN.mFaces = [mkFace 0 1 2 1, mkFace 3 4 5 3, mkFace 6 7 8 2] ∧
    TRICHAIN.mPositions[0]? = some ⟨0, 0, 0⟩ ∧
    TRICHAIN.mPositions[3]? = some ⟨0, 0, 0⟩ ∧
    (Vec3.sub (⟨0, 0, 0⟩ : Vec3) ⟨0, 0, 0⟩).length
      ≤ posEpsilonOf TRICHAIN.mPositions ∧
    (1 : ℕ) &&& 3 ≠ 0 ∧
    TRICHAINR.mNormals[0]? = some ⟨0, 0, 1⟩ ∧
    TRICHAINR.mNormals[3]? = some ⟨0, 0, -1⟩ ∧
    (⟨0, 0, 1⟩ : Vec3) ≠ ⟨0, 0, -1⟩ := by
  refine ⟨eval_TRICHAIN, rfl, rfl, rfl, ?_, by decide, rfl, rfl, ?_⟩
  · rw [TRICHAIN_eps]
    have hz : (Vec3.sub (⟨0, 0, 0⟩ : Vec3) ⟨0, 0, 0⟩).lengthSq = 0 := by
      norm_num [Vec3.sub, Vec3.lengthSq, Vec3.dot]
    rw [Vec3.length, hz, Real.sqrt_zero]
    norm_num
  · intro h
    have hzc := congrArg Vec3.z h
    norm_num at hzc

/-- Witness for the amended C2 at TRICHAIN: face A's origin corner is the
last writer of slot 0, and its output normal equals the normalization of
the sum over its own query's matches. -/
theorem C2_amended_witness :
    TRICHAIN.mFaces
      = [] ++ mkFace 0 1 2 1 :: [mkFace 3 4 5 3, mkFace 6 7 8 2] ∧
    ComputeNormalsWithSmoothingsGroups TRICHAIN = some TRICHAINR ∧
    TRICHAINR.mNormals[(mkFace 0 1 2 1).mIndices 0]?
      = cornerSmoothedNormal TRICHAIN (mkFace 0 1 2 1) 0 :=
  ⟨rfl, eval_TRICHAIN,
    C2_amended_corner_query_formula TRICHAIN TRICHAINR []
      [mkFace 3 4 5 3, mkFace 6 7 8 2] (mkFace 0 1 2 1) 0 rfl eval_TRICHAIN
      (by decide) (by decide)⟩
